import Mathlib

/-!
Shallow embedding of the kalimere veterinary-clinic API (TypeScript sources under
`src/api/src`) and proofs of the specification claims about it.

Conventions of the embedding:
* Database rows are Lean structures; the database is a `Db` record of row lists.
* Timestamps (`Date` values) are modelled as `Int` epoch milliseconds.  A `Date`
  and its ISO-8601 rendering (`toISOString`) are both represented by the same
  `Int`, since `toISOString` is injective and order preserving and no claim
  depends on the textual format.
* Drizzle/SQL queries are translated to list operations with SQL bag semantics:
  joins become `flatMap`/`filter`, `orderBy` becomes an insertion sort on the
  ordering key, `limit` becomes `List.take`, `returning` yields the written row.
* Fallible code returns `Except AppError`; service functions that write also
  return the resulting `Db`, and a thrown error leaves previously executed
  writes in place (the repository has no wrapping transactions).
* Nondeterministic inputs of the original code (generated uuids, per-row ids
  issued by the database, the current time `new Date()`, and injected external
  failures such as a failing S3 delete or a failing insert) are explicit
  parameters.
* JavaScript string primitives (`trim`, `toLowerCase`, `startsWith`) are
  embedded as executable functions over the character sequence of the string.
-/

namespace Kalimere

/-- Lowercase a single ASCII character, as JS `toLowerCase` acts on ASCII. -/
def lowerChar (c : Char) : Char :=
  if 'A' ≤ c ∧ c ≤ 'Z' then Char.ofNat (c.toNat + 32) else c

/-- JS `String.prototype.toLowerCase`, embedded over the character sequence
(the strings involved are ASCII mime types and identifiers). -/
def strLower (s : String) : String := ⟨s.data.map lowerChar⟩

/-- White-space test used by JS `trim` (the white-space characters that occur
in the inputs of interest). -/
def wsChar (c : Char) : Bool := c = ' ' || c = '\t' || c = '\n' || c = '\r'

/-- JS `String.prototype.trim`: drop leading and trailing white space. -/
def jsTrim (s : String) : String :=
  ⟨((s.data.dropWhile wsChar).reverse.dropWhile wsChar).reverse⟩

/-- JS `String.prototype.startsWith`, embedded over the character sequence. -/
def strStartsWith (s pre : String) : Bool :=
  pre.data.isPrefixOf s.data

/-- Sort a list in ascending order of an integer key; embeds SQL
`ORDER BY key ASC` (and, with a negated key, `ORDER BY key DESC`). -/
def sortByKey {α : Type} (k : α → Int) (l : List α) : List α :=
  List.insertionSort (fun a b => k a ≤ k b) l

/-- Modelled from the spec: the API maps failures to a small set of typed
application errors — not-found, bad-request (with an error code) and
validation errors, plus permission-denied and internal errors — the modules
`lib/app-error.ts` being absent from the sources.  `badRequest` carries the
`code` and `message` of the thrown object. -/
inductive AppError
  | notFound
  | badRequest (code : String) (message : String)
  | validation (message : String)
  | permissionDenied
  | internal (message : String)
deriving DecidableEq

/-- Visit status enum (`scheduled` / `completed` / `cancelled`) from the schema. -/
inductive VisitStatus
  | scheduled
  | completed
  | cancelled
deriving DecidableEq

/-- A row of the `customers` table (columns the services read). -/
structure Customer where
  id : String
  userId : String
  name : String
  email : Option String
  phone : Option String
  address : Option String
  isDeleted : Bool
deriving DecidableEq

/-- A row of the `pets` table (columns the services read). -/
structure Pet where
  id : String
  customerId : String
  name : String
  petType : String
  gender : String
  dateOfBirth : Option Int
  breed : Option String
  isSterilized : Option Bool
  isCastrated : Option Bool
  imageUrl : Option String
  isDeleted : Bool
deriving DecidableEq

/-- A row of the `visits` table. -/
structure Visit where
  id : String
  petId : String
  customerId : String
  status : VisitStatus
  scheduledStartAt : Int
  scheduledEndAt : Option Int
  completedAt : Option Int
  title : Option String
  description : Option String
  isDeleted : Bool
  createdAt : Int
  updatedAt : Int
deriving DecidableEq

/-- A row of the `visitTreatments` table. -/
structure VisitTreatment where
  id : String
  visitId : String
  treatmentId : String
  priceCents : Option Int
  nextDueDate : Option Int
  isDeleted : Bool
  createdAt : Int
  updatedAt : Int
deriving DecidableEq

/-- A row of the `visitNotes` table. -/
structure VisitNote where
  id : String
  visitId : String
  note : String
  createdAt : Int
  updatedAt : Int
deriving DecidableEq

/-- A row of the `visitImages` table. -/
structure VisitImage where
  id : String
  visitId : String
  storageKey : String
  originalName : Option String
  contentType : Option String
  isDeleted : Bool
  createdAt : Int
deriving DecidableEq

/-- A row of the treatment catalog table (`treatments`). -/
structure Treatment where
  id : String
  userId : String
  isDeleted : Bool
deriving DecidableEq

/-- The relational database: one list of rows per table. -/
structure Db where
  customers : List Customer
  pets : List Pet
  visits : List Visit
  visitTreatments : List VisitTreatment
  visitNotes : List VisitNote
  visitImages : List VisitImage
  treatments : List Treatment
deriving DecidableEq

/-- External failures injected into the embedding: whether a database insert
or the S3 delete call fails on this run (the original code meets these as
thrown exceptions of the driver or the SDK). -/
structure Faults where
  visitInsertFails : Bool
  treatmentInsertFails : Bool
  noteInsertFails : Bool
  s3DeleteFails : Bool
deriving DecidableEq

/-! ## services/s3.ts (the revision whose `buildPetScopePrefix` takes bare ids) -/

/-- Method of a presigned object-storage request. -/
inductive S3Method
  | put
  | get
deriving DecidableEq

/-- Embeds the `@aws-sdk` `getSignedUrl` result: the signed URL is represented
by the parameters it is signed over (command, key, content type, expiration in
seconds). -/
structure SignedUrlRequest where
  method : S3Method
  key : String
  contentType : Option String
  expiresIn : Nat
deriving DecidableEq

/-- Argument record of `buildPetScopePrefix`. -/
structure PetScopeArgs where
  userId : String
  customerId : String
  petId : String
deriving DecidableEq

/-- `buildPetScopePrefix` from `services/s3.ts`:
`` `${args.userId}/${args.customerId}/${args.petId}` ``. -/
def buildPetScopePrefix (args : PetScopeArgs) : String :=
  args.userId ++ "/" ++ args.customerId ++ "/" ++ args.petId

/-- `S3Service.getPresignedUploadUrl`: a PUT command for the key and content
type, signed with `expiresIn: 900` (15 minutes). -/
def getPresignedUploadUrl (key contentType : String) : SignedUrlRequest :=
  { method := S3Method.put, key := key, contentType := some contentType, expiresIn := 900 }

/-- `S3Service.getPresignedDownloadUrl`: a GET command for the key, signed
with `expiresIn: 3600` (1 hour). -/
def getPresignedDownloadUrl (key : String) : SignedUrlRequest :=
  { method := S3Method.get, key := key, contentType := none, expiresIn := 3600 }

/-! ## repositories/visit-repository.ts -/

/-- Insert values for a visit (`VisitInsert` without the database-generated
columns; the generated id and timestamps are explicit parameters of
`createVisit`). -/
structure VisitInsert where
  petId : String
  customerId : String
  status : VisitStatus
  scheduledStartAt : Int
  scheduledEndAt : Option Int
  completedAt : Option Int
  title : Option String
  description : Option String
deriving DecidableEq

/-- Row produced by `db.insert(visits).values(values).returning()` for a fresh
id and insertion time. -/
def mkVisit (id : String) (now : Int) (values : VisitInsert) : Visit :=
  { id := id, petId := values.petId, customerId := values.customerId,
    status := values.status, scheduledStartAt := values.scheduledStartAt,
    scheduledEndAt := values.scheduledEndAt, completedAt := values.completedAt,
    title := values.title, description := values.description,
    isDeleted := false, createdAt := now, updatedAt := now }

/-- `createVisit`: insert one visit row and return it.  A database failure
(injected through `faults`) surfaces as a thrown internal error. -/
def createVisit (db : Db) (faults : Faults) (id : String) (now : Int)
    (values : VisitInsert) : Except AppError (Option Visit) × Db :=
  if faults.visitInsertFails then (Except.error (AppError.internal "insert failed"), db)
  else
    let row := mkVisit id now values
    (Except.ok (some row), { db with visits := db.visits ++ [row] })

/-- Partial update of a visit (`Partial<VisitInsert>`): `none` means the field
is absent from the update object. -/
structure VisitUpdates where
  status? : Option VisitStatus
  scheduledStartAt? : Option Int
  scheduledEndAt? : Option (Option Int)
  completedAt? : Option (Option Int)
  title? : Option (Option String)
  description? : Option (Option String)
deriving DecidableEq

/-- Apply a partial update (plus `updatedAt: new Date()`) to a visit row. -/
def applyVisitUpdates (u : VisitUpdates) (now : Int) (v : Visit) : Visit :=
  { v with
    status := u.status?.getD v.status,
    scheduledStartAt := u.scheduledStartAt?.getD v.scheduledStartAt,
    scheduledEndAt := u.scheduledEndAt?.getD v.scheduledEndAt,
    completedAt := u.completedAt?.getD v.completedAt,
    title := u.title?.getD v.title,
    description := u.description?.getD v.description,
    updatedAt := now }

/-- `updateVisitById`: `UPDATE visits SET ... WHERE id = visitId AND NOT
isDeleted RETURNING`; yields the updated row (the first match) or `none`. -/
def updateVisitById (db : Db) (visitId : String) (u : VisitUpdates) (now : Int) :
    Option Visit × Db :=
  let hit := db.visits.find? (fun v => v.id == visitId && !v.isDeleted)
  let db' := { db with visits := db.visits.map (fun v =>
    if v.id == visitId && !v.isDeleted then applyVisitUpdates u now v else v) }
  (hit.map (applyVisitUpdates u now), db')

/-- `findActiveVisitsByPetId`: the pet's non-deleted visits, ordered by
`scheduledStartAt` descending. -/
def findActiveVisitsByPetId (db : Db) (petId : String) : List Visit :=
  sortByKey (fun v => -v.scheduledStartAt)
    (db.visits.filter (fun v => v.petId == petId && !v.isDeleted))

/-- Result row of `findVisitWithCustomerById`: the visit spread together with
the left-joined customer and pet (each `none` when the join found no row). -/
structure VisitWithCustomer where
  visit : Visit
  customer : Option Customer
  pet : Option Pet
deriving DecidableEq

/-- `findVisitWithCustomerById`: select the non-deleted visit by id, left
join its customer and pet, `limit 1`. -/
def findVisitWithCustomerById (db : Db) (visitId : String) : Option VisitWithCustomer :=
  match db.visits.find? (fun v => v.id == visitId && !v.isDeleted) with
  | none => none
  | some v =>
    some { visit := v,
           customer := db.customers.find? (fun c => c.id == v.customerId),
           pet := db.pets.find? (fun p => p.id == v.petId) }

/-- Result of `findVisitWithDetailsById`: the base row plus the visit's
treatment, note and image rows. -/
structure VisitDetails where
  visit : Visit
  customer : Option Customer
  pet : Option Pet
  visitTreatments : List VisitTreatment
  notes : List VisitNote
  images : List VisitImage
deriving DecidableEq

/-- `findVisitWithDetailsById`: the base visit, its non-deleted treatments,
all its notes, and its non-deleted images, each ordered by `createdAt` asc. -/
def findVisitWithDetailsById (db : Db) (visitId : String) : Option VisitDetails :=
  match findVisitWithCustomerById db visitId with
  | none => none
  | some base =>
    some { visit := base.visit, customer := base.customer, pet := base.pet,
           visitTreatments := sortByKey (fun t => t.createdAt)
             (db.visitTreatments.filter (fun t => t.visitId == visitId && !t.isDeleted)),
           notes := sortByKey (fun n => n.createdAt)
             (db.visitNotes.filter (fun n => n.visitId == visitId)),
           images := sortByKey (fun i => i.createdAt)
             (db.visitImages.filter (fun i => i.visitId == visitId && !i.isDeleted)) }

/-- Insert values for a visit treatment row. -/
structure VisitTreatmentInsert where
  visitId : String
  treatmentId : String
  priceCents : Option Int
  nextDueDate : Option Int
deriving DecidableEq

/-- Row produced by inserting a visit treatment with a fresh id. -/
def mkVisitTreatment (id : String) (now : Int) (ins : VisitTreatmentInsert) : VisitTreatment :=
  { id := id, visitId := ins.visitId, treatmentId := ins.treatmentId,
    priceCents := ins.priceCents, nextDueDate := ins.nextDueDate,
    isDeleted := false, createdAt := now, updatedAt := now }

/-- `createVisitTreatments`: empty input short-circuits to `[]`; otherwise the
rows are inserted in one statement (which fails atomically when the driver
errors, modelled by `faults.treatmentInsertFails`). -/
def createVisitTreatments (db : Db) (faults : Faults) (ids : List String) (now : Int)
    (values : List VisitTreatmentInsert) : Except AppError (List VisitTreatment) × Db :=
  if values.length == 0 then (Except.ok [], db)
  else if faults.treatmentInsertFails then (Except.error (AppError.internal "insert failed"), db)
  else
    let rows := (values.zip ids).map (fun p => mkVisitTreatment p.2 now p.1)
    (Except.ok rows, { db with visitTreatments := db.visitTreatments ++ rows })

/-- Insert values for a visit note row. -/
structure VisitNoteInsert where
  visitId : String
  note : String
deriving DecidableEq

/-- Row produced by inserting a visit note with a fresh id. -/
def mkVisitNote (id : String) (now : Int) (ins : VisitNoteInsert) : VisitNote :=
  { id := id, visitId := ins.visitId, note := ins.note, createdAt := now, updatedAt := now }

/-- `createVisitNotes`: empty input short-circuits; otherwise one insert. -/
def createVisitNotes (db : Db) (faults : Faults) (ids : List String) (now : Int)
    (values : List VisitNoteInsert) : Except AppError (List VisitNote) × Db :=
  if values.length == 0 then (Except.ok [], db)
  else if faults.noteInsertFails then (Except.error (AppError.internal "insert failed"), db)
  else
    let rows := (values.zip ids).map (fun p => mkVisitNote p.2 now p.1)
    (Except.ok rows, { db with visitNotes := db.visitNotes ++ rows })

/-- Insert values for a visit image row. -/
structure VisitImageInsert where
  visitId : String
  storageKey : String
  originalName : Option String
  contentType : Option String
deriving DecidableEq

/-- Row produced by inserting a visit image with a fresh id. -/
def mkVisitImage (id : String) (now : Int) (ins : VisitImageInsert) : VisitImage :=
  { id := id, visitId := ins.visitId, storageKey := ins.storageKey,
    originalName := ins.originalName, contentType := ins.contentType,
    isDeleted := false, createdAt := now }

/-- `createVisitImages`: empty input short-circuits; otherwise one insert
returning the inserted rows (no injected failure is needed by any claim). -/
def createVisitImages (db : Db) (ids : List String) (now : Int)
    (values : List VisitImageInsert) : List VisitImage × Db :=
  if values.length == 0 then ([], db)
  else
    let rows := (values.zip ids).map (fun p => mkVisitImage p.2 now p.1)
    (rows, { db with visitImages := db.visitImages ++ rows })

/-- Repository `deleteVisitImage`: `UPDATE visitImages SET isDeleted = true
WHERE id = imageId AND NOT isDeleted RETURNING`; yields the updated row. -/
def deleteVisitImageRepo (db : Db) (imageId : String) : Option VisitImage × Db :=
  let hit := db.visitImages.find? (fun r => r.id == imageId && !r.isDeleted)
  let db' := { db with visitImages := db.visitImages.map (fun r =>
    if r.id == imageId && !r.isDeleted then { r with isDeleted := true } else r) }
  (hit.map (fun r => { r with isDeleted := true }), db')

/-- `findVisitImageById`: the non-deleted image row by id, `limit 1`. -/
def findVisitImageById (db : Db) (imageId : String) : Option VisitImage :=
  db.visitImages.find? (fun r => r.id == imageId && !r.isDeleted)

/-- Result row of `findUpcomingVisitsByUserId`: a visit with its inner-joined
customer and pet. -/
structure UpcomingRow where
  visit : Visit
  customer : Customer
  pet : Pet
deriving DecidableEq

/-- `findUpcomingVisitsByUserId`: inner join visits with their customer and
pet, keep the authenticated user's non-deleted `scheduled` visits starting at
or after `now` (`gte(visits.scheduledStartAt, new Date())`), order by
`scheduledStartAt` ascending, and take `limit` rows. -/
def findUpcomingVisitsByUserId (db : Db) (now : Int) (userId : String) (limit : Nat) :
    List UpcomingRow :=
  let joined := db.visits.flatMap (fun v =>
    (db.customers.filter (fun c => c.id == v.customerId)).flatMap (fun c =>
      (db.pets.filter (fun p => p.id == v.petId)).map (fun p =>
        UpcomingRow.mk v c p)))
  let rows := joined.filter (fun r =>
    r.customer.userId == userId && !r.visit.isDeleted &&
      decide (r.visit.status = VisitStatus.scheduled) &&
      decide (now ≤ r.visit.scheduledStartAt))
  (sortByKey (fun r => r.visit.scheduledStartAt) rows).take limit

/-- `countVisitsByUserId`: one aggregate row over
`visits ⋈ customers ⟕ visitTreatments` restricted to the user's non-deleted
visits with `scheduledStartAt` in `[rangeStart, rangeEnd]`;
`count(visits.id)` counts every joined row (the id is never null) and
`coalesce(sum(priceCents), 0)` sums the non-null prices.  The claim's WHERE
clause only mentions visit and customer columns, so it is applied before the
left join, which preserves rows.  Note that no `isDeleted` condition is placed
on `visitTreatments`. -/
def countVisitsByUserId (db : Db) (userId : String) (rangeStart rangeEnd : Int) :
    Nat × Int :=
  let baseRows := db.visits.flatMap (fun v =>
    (db.customers.filter (fun c => c.id == v.customerId)).map (fun c => (v, c)))
  let whereRows := baseRows.filter (fun r =>
    r.2.userId == userId && !r.1.isDeleted &&
      decide (rangeStart ≤ r.1.scheduledStartAt) && decide (r.1.scheduledStartAt ≤ rangeEnd))
  let joined := whereRows.flatMap (fun r =>
    match db.visitTreatments.filter (fun t => t.visitId == r.1.id) with
    | [] => [(r.1, (none : Option VisitTreatment))]
    | t :: ts => (t :: ts).map (fun t' => (r.1, some t')))
  let revenue := (joined.map (fun row =>
    match row.2 with
    | some t => t.priceCents.getD 0
    | none => 0)).sum
  (joined.length, revenue)

/-! ## Repositories that are referenced but absent from the sources -/

/-- Modelled from the spec: `customer-repository.ts` is not among the sources;
its `findCustomerByIdForUser` looks the customer up by id scoped to the
authenticated user's id ("ownership is enforced by joining up the chain to the
authenticated user's id on every read/write") and excludes soft-deleted rows. -/
def findCustomerByIdForUser (db : Db) (userId customerId : String) : Option Customer :=
  db.customers.find? (fun c => c.id == customerId && c.userId == userId && !c.isDeleted)

/-- Modelled from the spec: `pet-repository.ts` is not among the sources; its
`findPetByIdForCustomer` looks the pet up by id scoped to the customer and
excludes soft-deleted rows ("soft-deleted pets are excluded from counts and
listings"). -/
def findPetByIdForCustomer (db : Db) (customerId petId : String) : Option Pet :=
  db.pets.find? (fun p => p.id == petId && p.customerId == customerId && !p.isDeleted)

/-- Modelled from the spec: `treatment-repository.ts` is not among the
sources; its `findTreatmentByIdForUser` looks the catalog treatment up by id
scoped to the user, excluding soft-deleted rows. -/
def findTreatmentByIdForUser (db : Db) (userId treatmentId : String) : Option Treatment :=
  db.treatments.find? (fun t => t.id == treatmentId && t.userId == userId && !t.isDeleted)

/-- Partial update of a pet (`Partial<PetInsert>`, restricted to the field the
claims exercise: the stored image data URL). -/
structure PetUpdates where
  imageUrl? : Option (Option String)
deriving DecidableEq

/-- Modelled from the spec: `pet-repository.ts`'s `updatePetById` updates the
pet row by id and returns the updated row (`none` when no row matched). -/
def updatePetById (db : Db) (petId : String) (u : PetUpdates) : Option Pet × Db :=
  let apply := fun (p : Pet) => { p with imageUrl := u.imageUrl?.getD p.imageUrl }
  let hit := db.pets.find? (fun p => p.id == petId)
  let db' := { db with pets := db.pets.map (fun p =>
    if p.id == petId then apply p else p) }
  (hit.map apply, db')

/-- Modelled from the spec: `countActiveCustomersByUserId` counts the user's
non-deleted customers ("soft-deleted pets are excluded from counts and
listings", likewise customers). -/
def countActiveCustomersByUserId (db : Db) (userId : String) : Nat :=
  (db.customers.filter (fun c => c.userId == userId && !c.isDeleted)).length

/-- Modelled from the spec: `countActivePetsByUserId` counts the non-deleted
pets of the user's non-deleted customers. -/
def countActivePetsByUserId (db : Db) (userId : String) : Nat :=
  (db.pets.filter (fun p => !p.isDeleted &&
    (db.customers.any (fun c => c.id == p.customerId && c.userId == userId && !c.isDeleted)))).length

/-! ## services/visit-service.ts -/

/-- `cleanNullableString`: non-strings become `null`, strings are trimmed and
empty results become `null`. -/
def cleanNullableString (value : Option String) : Option String :=
  match value with
  | none => none
  | some s =>
    let trimmed := jsTrim s
    if trimmed.length > 0 then some trimmed else none

/-- `toDateOnlyValue`: `null`/`undefined` stay `null`; a valid date value is
kept (date values are already epoch timestamps in the embedding, so no parse
can fail). -/
def toDateOnlyValue (value : Option Int) : Option Int := value

/-- Serialized visit (`Visit` DTO).  `toIsoString` keeps the timestamp. -/
structure VisitDto where
  id : String
  petId : String
  customerId : String
  status : VisitStatus
  scheduledStartAt : Int
  scheduledEndAt : Option Int
  completedAt : Option Int
  title : Option String
  description : Option String
  createdAt : Int
  updatedAt : Int
deriving DecidableEq

/-- `serializeVisit`. -/
def serializeVisit (record : Visit) : VisitDto :=
  { id := record.id, petId := record.petId, customerId := record.customerId,
    status := record.status, scheduledStartAt := record.scheduledStartAt,
    scheduledEndAt := record.scheduledEndAt, completedAt := record.completedAt,
    title := cleanNullableString record.title,
    description := cleanNullableString record.description,
    createdAt := record.createdAt, updatedAt := record.updatedAt }

/-- Serialized visit treatment.  `formatDateOnly` keeps the timestamp. -/
structure VisitTreatmentDto where
  id : String
  visitId : String
  treatmentId : String
  priceCents : Option Int
  nextDueDate : Option Int
  createdAt : Int
  updatedAt : Int
deriving DecidableEq

/-- `serializeVisitTreatment`. -/
def serializeVisitTreatment (record : VisitTreatment) : VisitTreatmentDto :=
  { id := record.id, visitId := record.visitId, treatmentId := record.treatmentId,
    priceCents := record.priceCents, nextDueDate := record.nextDueDate,
    createdAt := record.createdAt, updatedAt := record.updatedAt }

/-- Serialized visit note. -/
structure VisitNoteDto where
  id : String
  visitId : String
  note : String
  createdAt : Int
  updatedAt : Int
deriving DecidableEq

/-- `serializeVisitNote`. -/
def serializeVisitNote (record : VisitNote) : VisitNoteDto :=
  { id := record.id, visitId := record.visitId, note := record.note,
    createdAt := record.createdAt, updatedAt := record.updatedAt }

/-- Serialized visit image; `url` is the presigned download request for the
stored key. -/
structure VisitImageDto where
  id : String
  visitId : String
  url : SignedUrlRequest
  originalName : Option String
  contentType : Option String
  createdAt : Int
deriving DecidableEq

/-- `serializeVisitImage`. -/
def serializeVisitImage (record : VisitImage) : VisitImageDto :=
  { id := record.id, visitId := record.visitId,
    url := getPresignedDownloadUrl record.storageKey,
    originalName := record.originalName, contentType := record.contentType,
    createdAt := record.createdAt }

/-- Serialized visit with details (`...base` spread plus the three lists). -/
structure VisitWithDetailsDto where
  base : VisitDto
  treatments : List VisitTreatmentDto
  notes : List VisitNoteDto
  images : List VisitImageDto
deriving DecidableEq

/-- `serializeVisitWithDetails`. -/
def serializeVisitWithDetails (record : VisitDetails) : VisitWithDetailsDto :=
  { base := serializeVisit record.visit,
    treatments := record.visitTreatments.map serializeVisitTreatment,
    notes := record.notes.map serializeVisitNote,
    images := record.images.map serializeVisitImage }

/-- Customer and pet pair returned by `ensureCustomerAndPetOwnership`. -/
structure CustomerAndPet where
  customer : Customer
  pet : Pet
deriving DecidableEq

/-- `ensureCustomerAndPetOwnership`: the customer must belong to the user and
the pet to that customer, each missing link throwing `notFound()`. -/
def ensureCustomerAndPetOwnership (db : Db) (userId customerId petId : String) :
    Except AppError CustomerAndPet :=
  match findCustomerByIdForUser db userId customerId with
  | none => Except.error AppError.notFound
  | some customer =>
    match findPetByIdForCustomer db customer.id petId with
    | none => Except.error AppError.notFound
    | some pet => Except.ok { customer := customer, pet := pet }

/-- Element of `CreateVisitBody.treatments` / `UpdateVisitBody.treatments`. -/
structure TreatmentInput where
  treatmentId : String
  priceCents : Option Int
  nextDueDate : Option Int
deriving DecidableEq

/-- `ensureTreatmentsBelongToUser`: no-op for absent or empty lists; an empty
treatment id throws `notFound()`, and every (deduplicated) id must resolve
through `findTreatmentByIdForUser` or `notFound()` is thrown. -/
def ensureTreatmentsBelongToUser (db : Db) (userId : String)
    (treatments : Option (List TreatmentInput)) : Except AppError Unit :=
  match treatments with
  | none => Except.ok ()
  | some ts =>
    if ts.length == 0 then Except.ok ()
    else if ts.any (fun t => t.treatmentId.length == 0) then Except.error AppError.notFound
    else if ts.all (fun t => (findTreatmentByIdForUser db userId t.treatmentId).isSome) then
      Except.ok ()
    else Except.error AppError.notFound

/-- Element of `CreateVisitBody.notes` / `UpdateVisitBody.notes`. -/
structure NoteInput where
  note : String
deriving DecidableEq

/-- Request body of visit creation.  An outer `none` is an absent
(`undefined`) field; for `scheduledEndAt`/`completedAt` the inner option
distinguishes an explicit `null` from a timestamp. -/
structure CreateVisitBody where
  customerId : String
  petId : String
  status : Option VisitStatus
  scheduledStartAt : Int
  scheduledEndAt : Option (Option Int)
  completedAt : Option (Option Int)
  title : Option String
  description : Option String
  treatments : Option (List TreatmentInput)
  notes : Option (List NoteInput)
deriving DecidableEq

/-- Fresh ids the database would generate for the rows written by one
`createVisitForUser` call. -/
structure FreshIds where
  visitId : String
  treatmentIds : List String
  noteIds : List String
deriving DecidableEq

/-- `listVisitsForPet`. -/
def listVisitsForPet (db : Db) (petId : String) : List VisitDto :=
  (findActiveVisitsByPetId db petId).map serializeVisit

/-- `createVisitForUser`: ownership checks, then the visit insert, then (when
non-empty) the treatments insert, then (when non-empty) the notes insert —
three separate sequential writes, with no wrapping transaction, so a thrown
error keeps the earlier writes in the returned database. -/
def createVisitForUser (db : Db) (faults : Faults) (fresh : FreshIds) (now : Int)
    (userId : String) (input : CreateVisitBody) : Except AppError VisitDto × Db :=
  match ensureCustomerAndPetOwnership db userId input.customerId input.petId with
  | Except.error e => (Except.error e, db)
  | Except.ok cp =>
    match ensureTreatmentsBelongToUser db userId input.treatments with
    | Except.error e => (Except.error e, db)
    | Except.ok _ =>
      let values : VisitInsert :=
        { petId := cp.pet.id, customerId := cp.customer.id,
          status := input.status.getD VisitStatus.scheduled,
          scheduledStartAt := input.scheduledStartAt,
          scheduledEndAt := input.scheduledEndAt.getD none,
          completedAt := input.completedAt.getD none,
          title := cleanNullableString input.title,
          description := cleanNullableString input.description }
      match createVisit db faults fresh.visitId now values with
      | (Except.error e, db1) => (Except.error e, db1)
      | (Except.ok none, db1) => (Except.error (AppError.internal "Failed to create visit"), db1)
      | (Except.ok (some record), db1) =>
        let visitId := record.id
        let treatmentsToCreate := (input.treatments.getD []).map (fun t =>
          ({ visitId := visitId, treatmentId := t.treatmentId,
             priceCents := t.priceCents,
             nextDueDate := toDateOnlyValue t.nextDueDate } : VisitTreatmentInsert))
        match (if treatmentsToCreate.length > 0 then
                 createVisitTreatments db1 faults fresh.treatmentIds now treatmentsToCreate
               else (Except.ok [], db1)) with
        | (Except.error e, db2) => (Except.error e, db2)
        | (Except.ok _, db2) =>
          let notesToCreate := (input.notes.getD []).map (fun n =>
            ({ visitId := visitId, note := jsTrim n.note } : VisitNoteInsert))
          match (if notesToCreate.length > 0 then
                   createVisitNotes db2 faults fresh.noteIds now notesToCreate
                 else (Except.ok [], db2)) with
          | (Except.error e, db3) => (Except.error e, db3)
          | (Except.ok _, db3) => (Except.ok (serializeVisit record), db3)

/-- `ensureVisitBelongsToUser`: load the visit with its customer and pet and
throw `notFound()` unless the visit exists (non-deleted), has a joined
customer whose `userId` is the authenticated user's, and has a joined pet. -/
def ensureVisitBelongsToUser (db : Db) (userId visitId : String) :
    Except AppError VisitWithCustomer :=
  match findVisitWithCustomerById db visitId with
  | none => Except.error AppError.notFound
  | some visit =>
    match visit.customer with
    | none => Except.error AppError.notFound
    | some c =>
      if c.userId ≠ userId then Except.error AppError.notFound
      else
        match visit.pet with
        | none => Except.error AppError.notFound
        | some _ => Except.ok visit

/-- `getVisitForUser`. -/
def getVisitForUser (db : Db) (userId visitId : String) :
    Except AppError VisitWithDetailsDto :=
  match ensureVisitBelongsToUser db userId visitId with
  | Except.error e => Except.error e
  | Except.ok _ =>
    match findVisitWithDetailsById db visitId with
    | none => Except.error AppError.notFound
    | some record => Except.ok (serializeVisitWithDetails record)

/-- Request body of visit update (every field optional). -/
structure UpdateVisitBody where
  status : Option VisitStatus
  scheduledStartAt : Option Int
  scheduledEndAt : Option (Option Int)
  completedAt : Option (Option Int)
  title : Option (Option String)
  description : Option (Option String)
  treatments : Option (List TreatmentInput)
  notes : Option (List NoteInput)
deriving DecidableEq

/-- The `updates` object `updateVisitForUser` builds from its input. -/
def updatesOfBody (input : UpdateVisitBody) : VisitUpdates :=
  { status? := input.status,
    scheduledStartAt? := input.scheduledStartAt,
    scheduledEndAt? := input.scheduledEndAt,
    completedAt? := input.completedAt,
    title? := input.title.map cleanNullableString,
    description? := input.description.map cleanNullableString }

/-- Whether `Object.keys(updates).length > 0`. -/
def hasUpdates (input : UpdateVisitBody) : Bool :=
  input.status.isSome || input.scheduledStartAt.isSome || input.scheduledEndAt.isSome ||
    input.completedAt.isSome || input.title.isSome || input.description.isSome

/-- `updateVisitForUser`: ownership checks, the conditional partial update,
then appends of any new treatments and notes, and finally the reloaded,
serialized visit. -/
def updateVisitForUser (db : Db) (faults : Faults) (fresh : FreshIds) (now : Int)
    (userId visitId : String) (input : UpdateVisitBody) :
    Except AppError VisitWithDetailsDto × Db :=
  match ensureVisitBelongsToUser db userId visitId with
  | Except.error e => (Except.error e, db)
  | Except.ok _ =>
    match ensureTreatmentsBelongToUser db userId input.treatments with
    | Except.error e => (Except.error e, db)
    | Except.ok _ =>
      match (if hasUpdates input then
               match updateVisitById db visitId (updatesOfBody input) now with
               | (none, db1) => (Except.error AppError.notFound, db1)
               | (some _, db1) => (Except.ok (), db1)
             else (Except.ok (), db)) with
      | (Except.error e, db1) => (Except.error e, db1)
      | (Except.ok _, db1) =>
        let treatmentsToCreate := (input.treatments.getD []).map (fun t =>
          ({ visitId := visitId, treatmentId := t.treatmentId,
             priceCents := t.priceCents,
             nextDueDate := toDateOnlyValue t.nextDueDate } : VisitTreatmentInsert))
        match (if treatmentsToCreate.length > 0 then
                 createVisitTreatments db1 faults fresh.treatmentIds now treatmentsToCreate
               else (Except.ok [], db1)) with
        | (Except.error e, db2) => (Except.error e, db2)
        | (Except.ok _, db2) =>
          let notesToCreate := (input.notes.getD []).map (fun n =>
            ({ visitId := visitId, note := jsTrim n.note } : VisitNoteInsert))
          match (if notesToCreate.length > 0 then
                   createVisitNotes db2 faults fresh.noteIds now notesToCreate
                 else (Except.ok [], db2)) with
          | (Except.error e, db3) => (Except.error e, db3)
          | (Except.ok _, db3) =>
            match findVisitWithDetailsById db3 visitId with
            | none => (Except.error AppError.notFound, db3)
            | some record => (Except.ok (serializeVisitWithDetails record), db3)

/-- Result of `getVisitImageUploadUrl`. -/
structure UploadUrlResult where
  url : SignedUrlRequest
  key : String
  uuid : String
deriving DecidableEq

/-- `getVisitImageUploadUrl`: ownership check, then the upload key
`` `${prefix}/visits/${visit.id}/${uuid}` `` built over `buildPetScopePrefix`
of the user, customer and pet ids, signed for upload.  The generated
`crypto.randomUUID()` is the explicit `uuid` parameter. -/
def getVisitImageUploadUrl (db : Db) (uuid : String) (userId visitId contentType : String) :
    Except AppError UploadUrlResult :=
  match ensureVisitBelongsToUser db userId visitId with
  | Except.error e => Except.error e
  | Except.ok visit =>
    match visit.customer, visit.pet with
    | some customer, some pet =>
      let pfx := buildPetScopePrefix
        { userId := userId, customerId := customer.id, petId := pet.id }
      let key := pfx ++ "/visits/" ++ visit.visit.id ++ "/" ++ uuid
      Except.ok { url := getPresignedUploadUrl key contentType, key := key, uuid := uuid }
    | _, _ => Except.error AppError.notFound

/-- `deleteVisitImage` (service): ownership check, image lookup, best-effort
S3 delete inside `try/catch` (a failure is logged and ignored), then the
database soft delete.  `s3DeleteFails` says whether the S3 call throws. -/
def deleteVisitImage (db : Db) (s3DeleteFails : Bool) (userId visitId imageId : String) :
    Except AppError VisitImageDto × Db :=
  match ensureVisitBelongsToUser db userId visitId with
  | Except.error e => (Except.error e, db)
  | Except.ok _ =>
    match findVisitImageById db imageId with
    | none => (Except.error AppError.notFound, db)
    | some image =>
      if image.visitId ≠ visitId then (Except.error AppError.notFound, db)
      else
        -- try { await s3Service.deleteObject(image.storageKey) } catch { console.error(...) }:
        -- the outcome of the S3 call is discarded and execution continues.
        let _ : Except Unit Unit := if s3DeleteFails then Except.error () else Except.ok ()
        match deleteVisitImageRepo db imageId with
        | (none, db1) => (Except.error (AppError.internal "Failed to delete visit image"), db1)
        | (some deleted, db1) => (Except.ok (serializeVisitImage deleted), db1)

/-- `validateVisitImageKey`: the key must start with
`` `${prefix}/visits/${visit.id}/` `` for the visit's customer and pet (false
when either join is missing). -/
def validateVisitImageKey (userId : String) (visit : VisitWithCustomer) (key : String) : Bool :=
  match visit.customer, visit.pet with
  | some customer, some pet =>
    let pfx := buildPetScopePrefix
      { userId := userId, customerId := customer.id, petId := pet.id }
    strStartsWith key (pfx ++ "/visits/" ++ visit.visit.id ++ "/")
  | _, _ => false

/-- `addVisitImage`: ownership check, key validation (a mismatch throws
`badRequest` with code `invalid_storage_key`), then the image insert and the
serialized inserted row. -/
def addVisitImage (db : Db) (imageId : String) (now : Int)
    (userId visitId key : String) (originalName contentType : Option String) :
    Except AppError VisitImageDto × Db :=
  match ensureVisitBelongsToUser db userId visitId with
  | Except.error e => (Except.error e, db)
  | Except.ok visit =>
    if !validateVisitImageKey userId visit key then
      (Except.error (AppError.badRequest "invalid_storage_key"
        "Invalid storage key for this visit"), db)
    else
      match createVisitImages db [imageId] now
        [{ visitId := visitId, storageKey := key,
           originalName := originalName, contentType := contentType }] with
      | (rows, db1) =>
        match rows.head? with
        | none => (Except.error (AppError.internal "Failed to create visit image"), db1)
        | some image => (Except.ok (serializeVisitImage image), db1)

/-! ## services/dashboard-service.ts -/

/-- Result of `getDashboardStats`. -/
structure DashboardStats where
  activeCustomers : Nat
  activePets : Nat
  visitsThisMonth : Nat
  totalRevenue : Int
deriving DecidableEq

/-- `getDashboardStats`: counts plus the aggregate of `countVisitsByUserId`
over the current month.  The service computes the month range from
`new Date()`; the boundaries `rangeStart`/`rangeEnd` (start of month, end of
month) are explicit parameters here. -/
def getDashboardStats (db : Db) (userId : String) (rangeStart rangeEnd : Int) :
    DashboardStats :=
  let visitsData := countVisitsByUserId db userId rangeStart rangeEnd
  { activeCustomers := countActiveCustomersByUserId db userId,
    activePets := countActivePetsByUserId db userId,
    visitsThisMonth := visitsData.1,
    totalRevenue := visitsData.2 }

/-- Item returned by `getUpcomingVisits`; `date` is
`visit.scheduledStartAt.toISOString()`, kept as the timestamp. -/
structure UpcomingVisitDto where
  id : String
  petName : String
  customerName : String
  serviceType : String
  date : Int
  status : VisitStatus
deriving DecidableEq

/-- `getUpcomingVisits`: the first five upcoming rows, mapped to DTOs
(`visit.title ?? 'Visit'` for the service type; customer and pet come from
the inner join and are always present). -/
def getUpcomingVisits (db : Db) (now : Int) (userId : String) : List UpcomingVisitDto :=
  (findUpcomingVisitsByUserId db now userId 5).map (fun r =>
    { id := r.visit.id, petName := r.pet.name, customerName := r.customer.name,
      serviceType := r.visit.title.getD "Visit",
      date := r.visit.scheduledStartAt, status := r.visit.status })

/-! ## services/customer-service.ts -/

/-- Serialized pet (`petSchema` DTO). -/
structure PetDto where
  id : String
  customerId : String
  name : String
  petType : String
  gender : String
  dateOfBirth : Option Int
  breed : Option String
  isSterilized : Option Bool
  isCastrated : Option Bool
  imageUrl : Option String
deriving DecidableEq

/-- `serializePet`. -/
def serializePet (record : Pet) : PetDto :=
  { id := record.id, customerId := record.customerId, name := jsTrim record.name,
    petType := record.petType, gender := record.gender,
    dateOfBirth := record.dateOfBirth, breed := cleanNullableString record.breed,
    isSterilized := record.isSterilized, isCastrated := record.isCastrated,
    imageUrl := record.imageUrl }

/-- `allowedImageMimeTypes`. -/
def allowedImageMimeTypes : List String := ["image/png", "image/jpeg", "image/webp"]

/-- `MAX_IMAGE_BYTES = 2 * 1024 * 1024` (2MB). -/
def MAX_IMAGE_BYTES : Nat := 2 * 1024 * 1024

/-- Value of a base64 alphabet character in Node's decoding table (standard
and url-safe alphabets); `none` for characters outside the alphabet. -/
def b64Value (c : Char) : Option Nat :=
  if 'A' ≤ c ∧ c ≤ 'Z' then some (c.toNat - 65)
  else if 'a' ≤ c ∧ c ≤ 'z' then some (c.toNat - 97 + 26)
  else if '0' ≤ c ∧ c ≤ '9' then some (c.toNat - 48 + 52)
  else if c = '+' ∨ c = '-' then some 62
  else if c = '/' ∨ c = '_' then some 63
  else none

/-- Bytes of one base64 group of up to four 6-bit values (a trailing group of
two values yields one byte, of three values two bytes, of one value none). -/
def b64GroupBytes : List Nat → List Nat
  | [a, b] => [a * 4 + b / 16]
  | [a, b, c] => [a * 4 + b / 16, (b % 16) * 16 + c / 4]
  | [a, b, c, d] => [a * 4 + b / 16, (b % 16) * 16 + c / 4, (c % 4) * 64 + d]
  | _ => []

/-- Decode a sequence of 6-bit values in groups of four. -/
def b64DecodeVals : List Nat → List Nat
  | a :: b :: c :: d :: rest => b64GroupBytes [a, b, c, d] ++ b64DecodeVals rest
  | tail => b64GroupBytes tail

/-- Node's `Buffer.from(s, 'base64')`: decoding stops at the first `=` and
silently skips characters outside the base64 alphabet; it never throws. -/
def nodeBase64Decode (s : String) : List Nat :=
  b64DecodeVals ((s.data.takeWhile (fun c => c ≠ '=')).filterMap b64Value)

/-- Character of a 6-bit value in the standard base64 alphabet. -/
def b64Char (n : Nat) : Char :=
  if n < 26 then Char.ofNat (65 + n)
  else if n < 52 then Char.ofNat (97 + n - 26)
  else if n < 62 then Char.ofNat (48 + n - 52)
  else if n = 62 then '+'
  else '/'

/-- Encode bytes in groups of three, padding with `=`. -/
def b64EncodeBytes : List Nat → List Char
  | x :: y :: z :: rest =>
    b64Char (x / 4) :: b64Char ((x % 4) * 16 + y / 16) ::
      b64Char ((y % 16) * 4 + z / 64) :: b64Char (z % 64) :: b64EncodeBytes rest
  | [x, y] => [b64Char (x / 4), b64Char ((x % 4) * 16 + y / 16), b64Char ((y % 16) * 4), '=']
  | [x] => [b64Char (x / 4), b64Char ((x % 4) * 16), '=', '=']
  | [] => []

/-- Node's `buffer.toString('base64')`. -/
def base64Encode (bytes : List Nat) : String := ⟨b64EncodeBytes bytes⟩

/-- Match of `/^data:([^;]+);base64,(.+)$/i` against a string: the mime
capture is the non-empty run before the first `;`, which must be followed
case-insensitively by `;base64,` and a non-empty payload; `.` does not match
line terminators, so a payload containing one fails the match. -/
def matchDataUrl (value : String) : Option (String × String) :=
  let cs := value.data
  if (cs.take 5).map lowerChar = "data:".data then
    let afterScheme := cs.drop 5
    let mime := afterScheme.takeWhile (fun c => c ≠ ';')
    let rest := afterScheme.dropWhile (fun c => c ≠ ';')
    if mime.length == 0 then none
    else if (rest.take 8).map lowerChar = ";base64,".data then
      let payload := rest.drop 8
      if payload.length == 0 then none
      else if payload.any (fun c => c = '\n' ∨ c = '\r') then none
      else some (⟨mime⟩, ⟨payload⟩)
    else none
  else none

/-- `normalizeImageDataUrl`: trim, match the data-URL pattern
(`invalid_image_data` on failure), lowercase and check the mime type
(`unsupported_image_type`), base64-decode the payload (Node's decoder never
throws), reject empty (`invalid_image_data`) and oversized
(`image_too_large`) payloads, and return the canonical re-encoded data URL. -/
def normalizeImageDataUrl (raw : String) : Except AppError String :=
  let value := jsTrim raw
  match matchDataUrl value with
  | none => Except.error (AppError.badRequest "invalid_image_data" "Invalid image data URL format")
  | some (mime, payload) =>
    let mimeType := strLower mime
    if !(allowedImageMimeTypes.contains mimeType) then
      Except.error (AppError.badRequest "unsupported_image_type" "Unsupported image type")
    else
      let buffer := nodeBase64Decode payload
      if buffer.length == 0 then
        Except.error (AppError.badRequest "invalid_image_data" "Image data cannot be empty")
      else if buffer.length > MAX_IMAGE_BYTES then
        Except.error (AppError.badRequest "image_too_large" "Image exceeds the 2MB size limit")
      else
        Except.ok ("data:" ++ mimeType ++ ";base64," ++ base64Encode buffer)

/-- `updatePetImageForCustomer`: look the pet up for the customer
(`notFound()` when absent), normalize the data URL, store it through
`updatePetById`, and return the serialized updated pet. -/
def updatePetImageForCustomer (db : Db) (customerId petId dataUrl : String) :
    Except AppError PetDto × Db :=
  match findPetByIdForCustomer db customerId petId with
  | none => (Except.error AppError.notFound, db)
  | some _ =>
    match normalizeImageDataUrl dataUrl with
    | Except.error e => (Except.error e, db)
    | Except.ok normalized =>
      match updatePetById db petId { imageUrl? := some (some normalized) } with
      | (none, db1) => (Except.error (AppError.internal "Failed to update pet image"), db1)
      | (some updated, db1) => (Except.ok (serializePet updated), db1)

/-! ## Spec-side predicates used by the claim statements -/

/-- Predicate written from claim C1's words: the visit does not exist or is
soft-deleted, or it has no linked customer, or its customer's `userId`
differs from the authenticated user's id (the links resolved the way the
repository's `limit 1` left joins resolve them). -/
def visitOwnershipBroken (db : Db) (userId visitId : String) : Bool :=
  match db.visits.find? (fun v => v.id == visitId && !v.isDeleted) with
  | none => true
  | some v =>
    match db.customers.find? (fun c => c.id == v.customerId) with
    | none => true
    | some c => c.userId != userId

/-- All visit-treatment rows of a visit, soft-deleted ones included (the left
join in `countVisitsByUserId` has no `isDeleted` condition on them). -/
def treatmentRowsOf (db : Db) (v : Visit) : List VisitTreatment :=
  db.visitTreatments.filter (fun t => t.visitId == v.id)

/-- Predicate written from claim C8's words: a non-deleted visit scheduled
inside the month range and belonging to a customer of the user. -/
def monthVisitQualifies (db : Db) (userId : String) (rangeStart rangeEnd : Int)
    (v : Visit) : Bool :=
  !v.isDeleted && decide (rangeStart ≤ v.scheduledStartAt) &&
    decide (v.scheduledStartAt ≤ rangeEnd) &&
    db.customers.any (fun c => c.id == v.customerId && c.userId == userId)

/-! ## Sample data used by the closed witnesses -/

/-- Sample customer row. -/
def sampleCustomer : Customer :=
  { id := "c1", userId := "u1", name := "Alice", email := none, phone := none,
    address := none, isDeleted := false }

/-- Sample pet row. -/
def samplePet : Pet :=
  { id := "p1", customerId := "c1", name := "Rex", petType := "dog", gender := "male",
    dateOfBirth := none, breed := none, isSterilized := none, isCastrated := none,
    imageUrl := none, isDeleted := false }

/-- Sample visit row. -/
def sampleVisit : Visit :=
  { id := "v1", petId := "p1", customerId := "c1", status := VisitStatus.scheduled,
    scheduledStartAt := 100, scheduledEndAt := none, completedAt := none,
    title := none, description := none, isDeleted := false, createdAt := 5, updatedAt := 5 }

/-- Sample catalog treatment row. -/
def sampleTreatment : Treatment := { id := "t1", userId := "u1", isDeleted := false }

/-- Sample stored visit image row. -/
def sampleImage : VisitImage :=
  { id := "img0", visitId := "v1", storageKey := "u1/c1/p1/visits/v1/old",
    originalName := none, contentType := none, isDeleted := false, createdAt := 3 }

/-- Sample database. -/
def sampleDb : Db :=
  { customers := [sampleCustomer], pets := [samplePet], visits := [sampleVisit],
    visitTreatments := [], visitNotes := [], visitImages := [sampleImage],
    treatments := [sampleTreatment] }

/-- Sample `VisitWithCustomer` row as loaded from `sampleDb`. -/
def sampleVisitRow : VisitWithCustomer :=
  { visit := sampleVisit, customer := some sampleCustomer, pet := some samplePet }

/-- Sample visit-creation body referring to the sample customer, pet and
treatment, with one treatment entry and one note. -/
def sampleCreateBody : CreateVisitBody :=
  { customerId := "c1", petId := "p1", status := none, scheduledStartAt := 50,
    scheduledEndAt := none, completedAt := none, title := none, description := none,
    treatments := some [{ treatmentId := "t1", priceCents := some 100, nextDueDate := none }],
    notes := some [{ note := "hello" }] }

/-- Sample visit-update body. -/
def sampleUpdateBody : UpdateVisitBody :=
  { status := none, scheduledStartAt := none, scheduledEndAt := none,
    completedAt := none, title := none, description := none,
    treatments := none, notes := none }

/-- Sample fresh ids for a `createVisitForUser` call. -/
def sampleFresh : FreshIds :=
  { visitId := "v2", treatmentIds := ["vt1"], noteIds := ["vn1"] }

/-! ## Helper lemmas -/

/-- Appending on the right preserves the JS prefix test. -/
theorem strStartsWith_append (a b : String) : strStartsWith (a ++ b) a = true := by
  simp only [strStartsWith, String.data_append, List.isPrefixOf_iff_prefix]
  exact List.prefix_append _ _

/-- Membership is invariant under `sortByKey`. -/
theorem mem_sortByKey {α : Type} (k : α → Int) (l : List α) (a : α) :
    a ∈ sortByKey k l ↔ a ∈ l :=
  List.mem_insertionSort _

/-- `sortByKey` sorts by the key. -/
theorem pairwise_sortByKey {α : Type} (k : α → Int) (l : List α) :
    List.Pairwise (fun a b => k a ≤ k b) (sortByKey k l) := by
  have : IsTotal α (fun a b => k a ≤ k b) := ⟨fun a b => Int.le_total (k a) (k b)⟩
  have : IsTrans α (fun a b => k a ≤ k b) := ⟨fun _ _ _ h1 h2 => le_trans h1 h2⟩
  exact List.sorted_insertionSort _ l

/-- Unfolding of a successful `findVisitWithCustomerById`. -/
theorem findVisitWithCustomerById_some (db : Db) (visitId : String) (r : VisitWithCustomer)
    (h : findVisitWithCustomerById db visitId = some r) :
    db.visits.find? (fun v => v.id == visitId && !v.isDeleted) = some r.visit ∧
    r.visit.id = visitId ∧ r.visit.isDeleted = false ∧
    r.customer = db.customers.find? (fun c => c.id == r.visit.customerId) ∧
    r.pet = db.pets.find? (fun p => p.id == r.visit.petId) := by
  unfold findVisitWithCustomerById at h
  split at h
  · exact absurd h (by simp)
  · next v hv =>
    obtain rfl := (Option.some.inj h).symm
    have hpred := List.find?_some hv
    simp only [Bool.and_eq_true, beq_iff_eq, Bool.not_eq_eq_eq_not, Bool.not_true] at hpred
    exact ⟨hv, hpred.1, by simpa using hpred.2, rfl, rfl⟩

/-- Elimination of a successful `ensureVisitBelongsToUser`: the load succeeded
and the customer and pet links are present with the right owner. -/
theorem ensureVisitBelongsToUser_ok (db : Db) (userId visitId : String)
    (visit : VisitWithCustomer)
    (h : ensureVisitBelongsToUser db userId visitId = Except.ok visit) :
    findVisitWithCustomerById db visitId = some visit ∧
    (∃ c, visit.customer = some c ∧ c.userId = userId) ∧
    (∃ p, visit.pet = some p) := by
  unfold ensureVisitBelongsToUser at h
  split at h
  · exact absurd h (by simp)
  · next r hf =>
    split at h
    · exact absurd h (by simp)
    · next c hc =>
      split at h
      · exact absurd h (by simp)
      · next hu =>
        split at h
        · exact absurd h (by simp)
        · next p hp =>
          obtain rfl := Except.ok.inj h
          exact ⟨hf, ⟨c, hc, not_not.mp hu⟩, ⟨p, hp⟩⟩

/-- The only error `ensureVisitBelongsToUser` throws is `notFound`. -/
theorem ensureVisitBelongsToUser_error (db : Db) (userId visitId : String) (e : AppError)
    (h : ensureVisitBelongsToUser db userId visitId = Except.error e) :
    e = AppError.notFound := by
  unfold ensureVisitBelongsToUser at h
  split at h
  · simpa using h.symm
  · next r hf =>
    split at h
    · simpa using h.symm
    · next c hc =>
      split at h
      · simpa using h.symm
      · next hu =>
        split at h
        · simpa using h.symm
        · next p hp => exact absurd h (by simp)

/-! ## Claim C7 -/

/-- C7: for every key and content type, `getPresignedUploadUrl` signs a PUT
request expiring in exactly 900 seconds, and for every key
`getPresignedDownloadUrl` signs a GET request expiring in exactly 3600
seconds; both expirations are constants independent of the input. -/
theorem c7_presigned_url_expirations :
    ∀ key contentType : String,
      (getPresignedUploadUrl key contentType).method = S3Method.put ∧
      (getPresignedUploadUrl key contentType).expiresIn = 900 ∧
      (getPresignedDownloadUrl key).method = S3Method.get ∧
      (getPresignedDownloadUrl key).expiresIn = 3600 :=
  fun _ _ => ⟨rfl, rfl, rfl, rfl⟩

/-! ## Claim C3 -/

/-- C3: for every user, owned visit and content type, the key issued by
`getVisitImageUploadUrl` is accepted by `validateVisitImageKey` for the same
user and visit, because both derive the same deterministic prefix from
`buildPetScopePrefix` of the user, customer and pet ids followed by the
`/visits/<visitId>/` segment. -/
theorem c3_upload_key_roundtrip (db : Db) (uuid userId visitId contentType : String)
    (visit : VisitWithCustomer)
    (h : ensureVisitBelongsToUser db userId visitId = Except.ok visit) :
    ∃ res, getVisitImageUploadUrl db uuid userId visitId contentType = Except.ok res ∧
      validateVisitImageKey userId visit res.key = true ∧
      ∃ c p, visit.customer = some c ∧ visit.pet = some p ∧
        res.key = buildPetScopePrefix
            { userId := userId, customerId := c.id, petId := p.id } ++
          "/visits/" ++ visit.visit.id ++ "/" ++ uuid := by
  obtain ⟨_, ⟨c, hc, _⟩, ⟨p, hp⟩⟩ := ensureVisitBelongsToUser_ok db userId visitId visit h
  refine ⟨{ url := getPresignedUploadUrl (buildPetScopePrefix
              { userId := userId, customerId := c.id, petId := p.id } ++
              "/visits/" ++ visit.visit.id ++ "/" ++ uuid) contentType,
            key := buildPetScopePrefix
              { userId := userId, customerId := c.id, petId := p.id } ++
              "/visits/" ++ visit.visit.id ++ "/" ++ uuid,
            uuid := uuid }, ?_, ?_, c, p, hc, hp, rfl⟩
  · unfold getVisitImageUploadUrl
    rw [h]
    simp only [hc, hp]
  · unfold validateVisitImageKey
    rw [hc, hp]
    exact strStartsWith_append _ uuid

/-- Closed witness for C3 on `sampleDb`. -/
theorem c3_upload_key_roundtrip_witness :
    ∃ res, getVisitImageUploadUrl sampleDb "file1" "u1" "v1" "image/png" = Except.ok res ∧
      validateVisitImageKey "u1" sampleVisitRow res.key = true ∧
      ∃ c p, sampleVisitRow.customer = some c ∧ sampleVisitRow.pet = some p ∧
        res.key = buildPetScopePrefix
            { userId := "u1", customerId := c.id, petId := p.id } ++
          "/visits/" ++ sampleVisitRow.visit.id ++ "/" ++ "file1" :=
  c3_upload_key_roundtrip sampleDb "file1" "u1" "v1" "image/png" sampleVisitRow rfl

/-! ## Claim C2 -/

/-- C2: for every owned visit and every string key, `addVisitImage` persists
a visit-image record with that storage key exactly when the key starts with
the expected prefix for that visit (`buildPetScopePrefix` of the user,
customer and pet ids followed by `/visits/<visitId>/`); otherwise it fails
with a bad-request error carrying code `invalid_storage_key` and the
database is unchanged. -/
theorem c2_add_image_key_validation (db : Db) (imageId : String) (now : Int)
    (userId visitId key : String) (originalName contentType : Option String)
    (visit : VisitWithCustomer)
    (h : ensureVisitBelongsToUser db userId visitId = Except.ok visit) :
    (validateVisitImageKey userId visit key = true →
      addVisitImage db imageId now userId visitId key originalName contentType =
        (Except.ok (serializeVisitImage (mkVisitImage imageId now
            { visitId := visitId, storageKey := key,
              originalName := originalName, contentType := contentType })),
         { db with visitImages := db.visitImages ++ [mkVisitImage imageId now
            { visitId := visitId, storageKey := key,
              originalName := originalName, contentType := contentType }] })) ∧
    (validateVisitImageKey userId visit key = false →
      addVisitImage db imageId now userId visitId key originalName contentType =
        (Except.error (AppError.badRequest "invalid_storage_key"
          "Invalid storage key for this visit"), db)) ∧
    visit.visit.id = visitId ∧
    (∀ c p, visit.customer = some c → visit.pet = some p →
      (validateVisitImageKey userId visit key = true ↔
        strStartsWith key (buildPetScopePrefix
            { userId := userId, customerId := c.id, petId := p.id } ++
          "/visits/" ++ visitId ++ "/") = true)) := by
  obtain ⟨hfind, ⟨c0, hc0, hu0⟩, p0, hp0⟩ := ensureVisitBelongsToUser_ok db userId visitId visit h
  have hid : visit.visit.id = visitId :=
    (findVisitWithCustomerById_some db visitId visit hfind).2.1
  refine ⟨?_, ?_, hid, ?_⟩
  · intro hval
    unfold addVisitImage
    rw [h]
    simp only [hval, Bool.not_true, if_false]
    rfl
  · intro hval
    unfold addVisitImage
    rw [h]
    simp only [hval, Bool.not_false, if_true]
  · intro c p hc hp
    unfold validateVisitImageKey
    rw [hc, hp, hid]

/-- Closed witness for C2 on `sampleDb` with a key under the expected
prefix. -/
theorem c2_add_image_key_validation_witness :
    validateVisitImageKey "u1" sampleVisitRow "u1/c1/p1/visits/v1/file" = true ∧
    addVisitImage sampleDb "img1" 7 "u1" "v1" "u1/c1/p1/visits/v1/file" none none =
      (Except.ok (serializeVisitImage (mkVisitImage "img1" 7
          { visitId := "v1", storageKey := "u1/c1/p1/visits/v1/file",
            originalName := none, contentType := none })),
       { sampleDb with visitImages := sampleDb.visitImages ++ [mkVisitImage "img1" 7
          { visitId := "v1", storageKey := "u1/c1/p1/visits/v1/file",
            originalName := none, contentType := none }] }) :=
  ⟨by decide,
   (c2_add_image_key_validation sampleDb "img1" 7 "u1" "v1" "u1/c1/p1/visits/v1/file"
     none none sampleVisitRow rfl).1 (by decide)⟩

/-! ## Claim C1 -/

/-- A broken ownership chain makes `ensureVisitBelongsToUser` throw
`notFound`. -/
theorem visitOwnershipBroken_ensure (db : Db) (userId visitId : String)
    (hb : visitOwnershipBroken db userId visitId = true) :
    ensureVisitBelongsToUser db userId visitId = Except.error AppError.notFound := by
  unfold visitOwnershipBroken at hb
  split at hb
  · next hv =>
    have hf : findVisitWithCustomerById db visitId = none := by
      unfold findVisitWithCustomerById; rw [hv]
    unfold ensureVisitBelongsToUser
    rw [hf]
  · next v hv =>
    split at hb
    · next hcu =>
      have hf : findVisitWithCustomerById db visitId =
          some { visit := v, customer := none,
                 pet := db.pets.find? (fun p => p.id == v.petId) } := by
        unfold findVisitWithCustomerById
        rw [hv]
        simp only [hcu]
      unfold ensureVisitBelongsToUser
      rw [hf]
    · next c hcu =>
      have hne : c.userId ≠ userId := by simpa [bne_iff_ne] using hb
      have hf : findVisitWithCustomerById db visitId =
          some { visit := v, customer := some c,
                 pet := db.pets.find? (fun p => p.id == v.petId) } := by
        unfold findVisitWithCustomerById
        rw [hv]
        simp only [hcu]
      unfold ensureVisitBelongsToUser
      rw [hf]
      simp [hne]

/-- The only error `ensureTreatmentsBelongToUser` throws is `notFound`. -/
theorem ensureTreatmentsBelongToUser_error (db : Db) (userId : String)
    (ts : Option (List TreatmentInput)) (e : AppError)
    (h : ensureTreatmentsBelongToUser db userId ts = Except.error e) :
    e = AppError.notFound := by
  unfold ensureTreatmentsBelongToUser at h
  split at h
  · exact absurd h (by simp)
  · split at h
    · exact absurd h (by simp)
    · split at h
      · simpa using h.symm
      · split at h
        · exact absurd h (by simp)
        · simpa using h.symm

/-- The only error `createVisitTreatments` throws is the injected insert
failure. -/
theorem createVisitTreatments_error (db : Db) (faults : Faults) (ids : List String)
    (now : Int) (values : List VisitTreatmentInsert) (e : AppError) (db2 : Db)
    (h : createVisitTreatments db faults ids now values = (Except.error e, db2)) :
    e = AppError.internal "insert failed" ∧ db2 = db := by
  unfold createVisitTreatments at h
  split at h
  · exact absurd h (by simp)
  · split at h
    · simp only [Prod.mk.injEq, Except.error.injEq] at h
      exact ⟨h.1.symm, h.2.symm⟩
    · exact absurd h (by simp)

/-- The only error `createVisitNotes` throws is the injected insert
failure. -/
theorem createVisitNotes_error (db : Db) (faults : Faults) (ids : List String)
    (now : Int) (values : List VisitNoteInsert) (e : AppError) (db2 : Db)
    (h : createVisitNotes db faults ids now values = (Except.error e, db2)) :
    e = AppError.internal "insert failed" ∧ db2 = db := by
  unfold createVisitNotes at h
  split at h
  · exact absurd h (by simp)
  · split at h
    · simp only [Prod.mk.injEq, Except.error.injEq] at h
      exact ⟨h.1.symm, h.2.symm⟩
    · exact absurd h (by simp)

/-- Every error of `getVisitForUser` is `notFound`. -/
theorem getVisitForUser_error (db : Db) (userId visitId : String) (e : AppError)
    (h : getVisitForUser db userId visitId = Except.error e) :
    e = AppError.notFound := by
  unfold getVisitForUser at h
  split at h
  · next e1 heq =>
    have he : e1 = e := by simpa using h
    exact he ▸ ensureVisitBelongsToUser_error db userId visitId e1 heq
  · split at h
    · simpa using h.symm
    · exact absurd h (by simp)

/-- Every error of `updateVisitForUser` is `notFound` or an injected insert
failure — in particular never `permissionDenied`. -/
theorem updateVisitForUser_error (db : Db) (faults : Faults) (fresh : FreshIds)
    (now : Int) (userId visitId : String) (input : UpdateVisitBody) (e : AppError) (db2 : Db)
    (h : updateVisitForUser db faults fresh now userId visitId input = (Except.error e, db2)) :
    e = AppError.notFound ∨ e = AppError.internal "insert failed" := by
  unfold updateVisitForUser at h
  split at h
  · next e1 heq =>
    simp only [Prod.mk.injEq, Except.error.injEq] at h
    exact Or.inl (h.1 ▸ ensureVisitBelongsToUser_error db userId visitId e1 heq)
  · split at h
    · next e1 heq =>
      simp only [Prod.mk.injEq, Except.error.injEq] at h
      exact Or.inl (h.1 ▸ ensureTreatmentsBelongToUser_error db userId input.treatments e1 heq)
    · split at h
      · next e1 db1 heq =>
        -- the conditional partial update threw: the only error there is notFound
        split at heq
        · split at heq
          · simp only [Prod.mk.injEq, Except.error.injEq] at heq
            simp only [Prod.mk.injEq, Except.error.injEq] at h
            exact Or.inl (h.1 ▸ heq.1.symm)
          · exact absurd heq (by simp)
        · exact absurd heq (by simp)
      · dsimp only at h
        split at h
        · next e1 db1 heq =>
          split at heq
          · simp only [Prod.mk.injEq, Except.error.injEq] at h
            exact Or.inr (h.1 ▸
              (createVisitTreatments_error _ _ _ _ _ _ _ heq).1)
          · exact absurd heq (by simp)
        · split at h
          · next e1 db1 heq =>
            split at heq
            · simp only [Prod.mk.injEq, Except.error.injEq] at h
              exact Or.inr (h.1 ▸
                (createVisitNotes_error _ _ _ _ _ _ _ heq).1)
            · exact absurd heq (by simp)
          · split at h
            · simp only [Prod.mk.injEq, Except.error.injEq] at h
              exact Or.inl h.1.symm
            · exact absurd h (by simp)

/-- C1: for every user id and visit id, `getVisitForUser` and
`updateVisitForUser` fail with `notFound` (never `permissionDenied`) whenever
the visit does not exist, is soft-deleted, has no linked customer, or its
customer's `userId` differs from the authenticated user's id; the ownership
gate passes only when the chain matches. -/
theorem c1_visit_ownership_not_found (db : Db) (faults : Faults) (fresh : FreshIds)
    (now : Int) (userId visitId : String) (input : UpdateVisitBody) :
    (visitOwnershipBroken db userId visitId = true →
      getVisitForUser db userId visitId = Except.error AppError.notFound ∧
      updateVisitForUser db faults fresh now userId visitId input =
        (Except.error AppError.notFound, db)) ∧
    (∀ visit, ensureVisitBelongsToUser db userId visitId = Except.ok visit →
      visitOwnershipBroken db userId visitId = false ∧
      (∃ c, visit.customer = some c ∧ c.userId = userId) ∧
      (∃ p, visit.pet = some p) ∧
      visit.visit.isDeleted = false ∧ visit.visit.id = visitId) ∧
    (∀ e, getVisitForUser db userId visitId = Except.error e → e = AppError.notFound) ∧
    (∀ e db2, updateVisitForUser db faults fresh now userId visitId input =
        (Except.error e, db2) → e ≠ AppError.permissionDenied) := by
  refine ⟨?_, ?_, getVisitForUser_error db userId visitId, ?_⟩
  · intro hb
    have he := visitOwnershipBroken_ensure db userId visitId hb
    constructor
    · unfold getVisitForUser
      rw [he]
    · unfold updateVisitForUser
      rw [he]
  · intro visit hok
    obtain ⟨hfind, ⟨c, hc, hu⟩, p, hp⟩ :=
      ensureVisitBelongsToUser_ok db userId visitId visit hok
    obtain ⟨hv, hid, hdel, hcust, _⟩ :=
      findVisitWithCustomerById_some db visitId visit hfind
    refine ⟨?_, ⟨c, hc, hu⟩, ⟨p, hp⟩, hdel, hid⟩
    unfold visitOwnershipBroken
    rw [hv]
    show (match db.customers.find? (fun x => x.id == visit.visit.customerId) with
      | none => true
      | some c => c.userId != userId) = false
    rw [← hcust, hc]
    show (c.userId != userId) = false
    simp [hu]
  · intro e db2 hupd
    rcases updateVisitForUser_error db faults fresh now userId visitId input e db2 hupd with
      h1 | h1 <;> simp [h1]

/-- Closed witness for C1: a foreign user gets `notFound` on `sampleDb`. -/
theorem c1_visit_ownership_not_found_witness :
    visitOwnershipBroken sampleDb "u2" "v1" = true ∧
    getVisitForUser sampleDb "u2" "v1" = Except.error AppError.notFound ∧
    updateVisitForUser sampleDb ⟨false, false, false, false⟩ sampleFresh 9 "u2" "v1"
      sampleUpdateBody = (Except.error AppError.notFound, sampleDb) :=
  ⟨by decide,
   ((c1_visit_ownership_not_found sampleDb ⟨false, false, false, false⟩ sampleFresh 9
      "u2" "v1" sampleUpdateBody).1 (by decide)).1,
   ((c1_visit_ownership_not_found sampleDb ⟨false, false, false, false⟩ sampleFresh 9
      "u2" "v1" sampleUpdateBody).1 (by decide)).2⟩

/-! ## Claim C4 -/

/-- C4: soft-deleted records never surface in reads: `listVisitsForPet` only
returns serializations of non-deleted visits of the pet, and
`findVisitWithDetailsById` only returns a non-deleted visit together with
exclusively non-deleted treatment and image rows of that visit. -/
theorem c4_soft_delete_excluded (db : Db) (petId visitId : String) :
    (∀ dto ∈ listVisitsForPet db petId,
      ∃ v, v ∈ db.visits ∧ v.isDeleted = false ∧ v.petId = petId ∧
        dto = serializeVisit v) ∧
    (∀ d, findVisitWithDetailsById db visitId = some d →
      d.visit.isDeleted = false ∧
      (∀ t ∈ d.visitTreatments, t.isDeleted = false ∧ t.visitId = visitId ∧
        t ∈ db.visitTreatments) ∧
      (∀ i ∈ d.images, i.isDeleted = false ∧ i.visitId = visitId ∧
        i ∈ db.visitImages)) := by
  constructor
  · intro dto hdto
    unfold listVisitsForPet at hdto
    obtain ⟨v, hv, rfl⟩ := List.mem_map.mp hdto
    unfold findActiveVisitsByPetId at hv
    rw [mem_sortByKey] at hv
    obtain ⟨hmem, hpred⟩ := List.mem_filter.mp hv
    simp only [Bool.and_eq_true, beq_iff_eq, Bool.not_eq_eq_eq_not, Bool.not_true] at hpred
    exact ⟨v, hmem, by simpa using hpred.2, hpred.1, rfl⟩
  · intro d hd
    unfold findVisitWithDetailsById at hd
    split at hd
    · exact absurd hd (by simp)
    · next base hbase =>
      obtain rfl := Option.some.inj hd
      obtain ⟨_, _, hdel, _, _⟩ := findVisitWithCustomerById_some db visitId base hbase
      refine ⟨hdel, ?_, ?_⟩
      · intro t ht
        have ht' : t ∈ db.visitTreatments.filter
            (fun t => t.visitId == visitId && !t.isDeleted) := by
          rw [← mem_sortByKey (fun t => t.createdAt)]
          exact ht
        obtain ⟨hmem, hpred⟩ := List.mem_filter.mp ht'
        simp only [Bool.and_eq_true, beq_iff_eq, Bool.not_eq_eq_eq_not, Bool.not_true] at hpred
        exact ⟨by simpa using hpred.2, hpred.1, hmem⟩
      · intro i hi
        have hi' : i ∈ db.visitImages.filter
            (fun i => i.visitId == visitId && !i.isDeleted) := by
          rw [← mem_sortByKey (fun i => i.createdAt)]
          exact hi
        obtain ⟨hmem, hpred⟩ := List.mem_filter.mp hi'
        simp only [Bool.and_eq_true, beq_iff_eq, Bool.not_eq_eq_eq_not, Bool.not_true] at hpred
        exact ⟨by simpa using hpred.2, hpred.1, hmem⟩

/-- Closed witness for C4 on `sampleDb`. -/
theorem c4_soft_delete_excluded_witness :
    ∃ v, v ∈ sampleDb.visits ∧ v.isDeleted = false ∧ v.petId = "p1" ∧
      serializeVisit sampleVisit = serializeVisit v :=
  (c4_soft_delete_excluded sampleDb "p1" "v1").1 (serializeVisit sampleVisit) (by decide)

/-! ## Claim C5 -/

/-- C5: for an owned visit and an image belonging to it, the S3 delete
outcome never influences `deleteVisitImage`: the run with a failing S3 call
equals the run with a succeeding one, and either way the image row is
soft-deleted in the database and the serialized deleted image is returned. -/
theorem c5_s3_failure_does_not_block_soft_delete (db : Db)
    (userId visitId imageId : String) (visit : VisitWithCustomer) (image : VisitImage)
    (h1 : ensureVisitBelongsToUser db userId visitId = Except.ok visit)
    (h2 : findVisitImageById db imageId = some image)
    (h3 : image.visitId = visitId) :
    deleteVisitImage db true userId visitId imageId =
      deleteVisitImage db false userId visitId imageId ∧
    ∀ s3fail : Bool,
      (deleteVisitImage db s3fail userId visitId imageId).1 =
        Except.ok (serializeVisitImage { image with isDeleted := true }) ∧
      ∀ r ∈ (deleteVisitImage db s3fail userId visitId imageId).2.visitImages,
        r.id = imageId → r.isDeleted = true := by
  have hrepo : deleteVisitImageRepo db imageId =
      (some { image with isDeleted := true },
       { db with visitImages := db.visitImages.map (fun r =>
          if r.id == imageId && !r.isDeleted then { r with isDeleted := true } else r) }) := by
    unfold deleteVisitImageRepo
    unfold findVisitImageById at h2
    rw [h2]
    rfl
  have hmain : ∀ s3fail : Bool, deleteVisitImage db s3fail userId visitId imageId =
      (Except.ok (serializeVisitImage { image with isDeleted := true }),
       { db with visitImages := db.visitImages.map (fun r =>
          if r.id == imageId && !r.isDeleted then { r with isDeleted := true } else r) }) := by
    intro s3fail
    unfold deleteVisitImage
    rw [h1]
    simp only [h2, h3, hrepo, ne_eq, not_true_eq_false, if_false]
  refine ⟨by rw [hmain true, hmain false], ?_⟩
  intro s3fail
  rw [hmain s3fail]
  refine ⟨rfl, ?_⟩
  intro r hr hid
  obtain ⟨r0, hr0, rfl⟩ := List.mem_map.mp hr
  cases hcb : (r0.id == imageId && !r0.isDeleted) with
  | true => simp [hcb]
  | false =>
    simp only [hcb, Bool.false_eq_true, if_false] at hid ⊢
    rcases Bool.and_eq_false_iff.mp hcb with hfalse | hfalse
    · exact absurd (hid ▸ hfalse) (by simp)
    · simpa using hfalse

/-- Closed witness for C5 on `sampleDb` and its stored image. -/
theorem c5_s3_failure_does_not_block_soft_delete_witness :
    deleteVisitImage sampleDb true "u1" "v1" "img0" =
      deleteVisitImage sampleDb false "u1" "v1" "img0" ∧
    (deleteVisitImage sampleDb true "u1" "v1" "img0").1 =
      Except.ok (serializeVisitImage { sampleImage with isDeleted := true }) :=
  ⟨(c5_s3_failure_does_not_block_soft_delete sampleDb "u1" "v1" "img0"
      sampleVisitRow sampleImage rfl rfl rfl).1,
   ((c5_s3_failure_does_not_block_soft_delete sampleDb "u1" "v1" "img0"
      sampleVisitRow sampleImage rfl rfl rfl).2 true).1⟩

/-! ## Claim C6 -/

/-- `createVisit` without an injected failure appends exactly the new visit
row. -/
theorem createVisit_ok (db : Db) (faults : Faults) (id : String) (now : Int)
    (values : VisitInsert) (hf : faults.visitInsertFails = false) :
    createVisit db faults id now values =
      (Except.ok (some (mkVisit id now values)),
       { db with visits := db.visits ++ [mkVisit id now values] }) := by
  unfold createVisit
  simp [hf]

/-- `createVisitTreatments` with a non-empty insert and an injected failure
throws and leaves the database untouched. -/
theorem createVisitTreatments_fail (db : Db) (faults : Faults) (ids : List String)
    (now : Int) (values : List VisitTreatmentInsert)
    (hlen : values.length ≠ 0) (hf : faults.treatmentInsertFails = true) :
    createVisitTreatments db faults ids now values =
      (Except.error (AppError.internal "insert failed"), db) := by
  unfold createVisitTreatments
  simp [beq_eq_false_iff_ne.mpr hlen, hf]

/-- `createVisitTreatments` with a non-empty insert and no injected failure
appends the inserted rows. -/
theorem createVisitTreatments_ok (db : Db) (faults : Faults) (ids : List String)
    (now : Int) (values : List VisitTreatmentInsert)
    (hlen : values.length ≠ 0) (hf : faults.treatmentInsertFails = false) :
    createVisitTreatments db faults ids now values =
      (Except.ok ((values.zip ids).map (fun p => mkVisitTreatment p.2 now p.1)),
       { db with visitTreatments := db.visitTreatments ++
          (values.zip ids).map (fun p => mkVisitTreatment p.2 now p.1) }) := by
  unfold createVisitTreatments
  simp [beq_eq_false_iff_ne.mpr hlen, hf]

/-- `createVisitNotes` with a non-empty insert and an injected failure throws
and leaves the database untouched. -/
theorem createVisitNotes_fail (db : Db) (faults : Faults) (ids : List String)
    (now : Int) (values : List VisitNoteInsert)
    (hlen : values.length ≠ 0) (hf : faults.noteInsertFails = true) :
    createVisitNotes db faults ids now values =
      (Except.error (AppError.internal "insert failed"), db) := by
  unfold createVisitNotes
  simp [beq_eq_false_iff_ne.mpr hlen, hf]

/-- C6: `createVisitForUser` runs the visit insert, the treatments insert and
the notes insert as three separate sequential writes with no wrapping
transaction: when the treatments insert fails the already-inserted visit row
stays persisted (and nothing else was written), and when the notes insert
fails both the visit row and the treatment rows stay persisted. -/
theorem c6_no_transaction_rollback (db : Db) (fresh : FreshIds) (now : Int)
    (userId : String) (input : CreateVisitBody) (cp : CustomerAndPet)
    (h1 : ensureCustomerAndPetOwnership db userId input.customerId input.petId =
      Except.ok cp)
    (h2 : ensureTreatmentsBelongToUser db userId input.treatments = Except.ok ())
    (h3 : (input.treatments.getD []).length ≠ 0)
    (h4 : (input.notes.getD []).length ≠ 0) :
    (∃ v, createVisitForUser db ⟨false, true, false, false⟩ fresh now userId input =
        (Except.error (AppError.internal "insert failed"),
         { db with visits := db.visits ++ [v] }) ∧
      v.id = fresh.visitId ∧ v.petId = cp.pet.id ∧ v.customerId = cp.customer.id ∧
      v.isDeleted = false) ∧
    (∃ v rows, createVisitForUser db ⟨false, false, true, false⟩ fresh now userId input =
        (Except.error (AppError.internal "insert failed"),
         { db with
           visits := db.visits ++ [v],
           visitTreatments := db.visitTreatments ++ rows }) ∧
      v.id = fresh.visitId ∧
      rows = (((input.treatments.getD []).map (fun t =>
        ({ visitId := fresh.visitId, treatmentId := t.treatmentId,
           priceCents := t.priceCents,
           nextDueDate := toDateOnlyValue t.nextDueDate } : VisitTreatmentInsert))).zip
          fresh.treatmentIds).map (fun p => mkVisitTreatment p.2 now p.1)) := by
  have hlenT : ∀ visitId : String, (((input.treatments.getD []).map (fun t =>
      ({ visitId := visitId, treatmentId := t.treatmentId,
         priceCents := t.priceCents,
         nextDueDate := toDateOnlyValue t.nextDueDate } : VisitTreatmentInsert))).length ≠ 0) := by
    intro visitId
    simpa [List.length_map] using h3
  have hlenN : ∀ visitId : String, (((input.notes.getD []).map (fun n =>
      ({ visitId := visitId, note := jsTrim n.note } : VisitNoteInsert))).length ≠ 0) := by
    intro visitId
    simpa [List.length_map] using h4
  constructor
  · refine ⟨mkVisit fresh.visitId now
      { petId := cp.pet.id, customerId := cp.customer.id,
        status := input.status.getD VisitStatus.scheduled,
        scheduledStartAt := input.scheduledStartAt,
        scheduledEndAt := input.scheduledEndAt.getD none,
        completedAt := input.completedAt.getD none,
        title := cleanNullableString input.title,
        description := cleanNullableString input.description }, ?_, rfl, rfl, rfl, rfl⟩
    unfold createVisitForUser
    rw [h1]
    simp only [h2]
    rw [createVisit_ok _ _ _ _ _ rfl]
    simp only []
    rw [if_pos (Nat.pos_of_ne_zero (hlenT _))]
    rw [createVisitTreatments_fail _ _ _ _ _ (hlenT _) rfl]
  · refine ⟨mkVisit fresh.visitId now
      { petId := cp.pet.id, customerId := cp.customer.id,
        status := input.status.getD VisitStatus.scheduled,
        scheduledStartAt := input.scheduledStartAt,
        scheduledEndAt := input.scheduledEndAt.getD none,
        completedAt := input.completedAt.getD none,
        title := cleanNullableString input.title,
        description := cleanNullableString input.description }, _, ?_, rfl, rfl⟩
    unfold createVisitForUser
    rw [h1]
    simp only [h2]
    rw [createVisit_ok _ _ _ _ _ rfl]
    simp only []
    rw [if_pos (Nat.pos_of_ne_zero (hlenT _))]
    rw [createVisitTreatments_ok _ _ _ _ _ (hlenT _) rfl]
    simp only []
    rw [if_pos (Nat.pos_of_ne_zero (hlenN _))]
    rw [createVisitNotes_fail _ _ _ _ _ (hlenN _) rfl]
    rfl

/-- Closed witness for C6 on `sampleDb` and `sampleCreateBody`. -/
theorem c6_no_transaction_rollback_witness :
    ∃ v, createVisitForUser sampleDb ⟨false, true, false, false⟩ sampleFresh 9 "u1"
        sampleCreateBody =
      (Except.error (AppError.internal "insert failed"),
       { sampleDb with visits := sampleDb.visits ++ [v] }) ∧
      v.id = sampleFresh.visitId ∧ v.petId = samplePet.id ∧
      v.customerId = sampleCustomer.id ∧ v.isDeleted = false :=
  (c6_no_transaction_rollback sampleDb sampleFresh 9 "u1" sampleCreateBody
    { customer := sampleCustomer, pet := samplePet } rfl rfl
    (by decide) (by decide)).1

/-! ## Claim C9 -/

/-- C9: `getUpcomingVisits` returns at most 5 items; every row delivered by
`findUpcomingVisitsByUserId` belongs to a customer of the user (and to its
own pet), is not soft-deleted, has status `scheduled` and starts at or after
`now`; and both the rows and the mapped DTOs are in ascending order of
`scheduledStartAt`. -/
theorem c9_upcoming_visits (db : Db) (now : Int) (userId : String) :
    (getUpcomingVisits db now userId).length ≤ 5 ∧
    (∀ r ∈ findUpcomingVisitsByUserId db now userId 5,
      r.customer.userId = userId ∧ r.customer.id = r.visit.customerId ∧
      r.pet.id = r.visit.petId ∧ r.visit.isDeleted = false ∧
      r.visit.status = VisitStatus.scheduled ∧ now ≤ r.visit.scheduledStartAt) ∧
    List.Pairwise (fun a b => a.visit.scheduledStartAt ≤ b.visit.scheduledStartAt)
      (findUpcomingVisitsByUserId db now userId 5) ∧
    List.Pairwise (fun a b => a.date ≤ b.date) (getUpcomingVisits db now userId) := by
  have hsorted : List.Pairwise
      (fun a b => a.visit.scheduledStartAt ≤ b.visit.scheduledStartAt)
      (findUpcomingVisitsByUserId db now userId 5) := by
    unfold findUpcomingVisitsByUserId
    exact (pairwise_sortByKey _ _).sublist (List.take_sublist ..)
  refine ⟨?_, ?_, hsorted, ?_⟩
  · unfold getUpcomingVisits findUpcomingVisitsByUserId
    rw [List.length_map, List.length_take]
    exact Nat.min_le_left _ _
  · intro r hr
    unfold findUpcomingVisitsByUserId at hr
    have hr1 := List.mem_of_mem_take hr
    rw [mem_sortByKey] at hr1
    obtain ⟨hjoined, hpred⟩ := List.mem_filter.mp hr1
    simp only [Bool.and_eq_true, beq_iff_eq, decide_eq_true_eq,
      Bool.not_eq_eq_eq_not, Bool.not_true] at hpred
    obtain ⟨⟨⟨huser, hdel⟩, hstatus⟩, hstart⟩ := hpred
    obtain ⟨v, _, hv⟩ := List.mem_flatMap.mp hjoined
    obtain ⟨c, hc, hcp⟩ := List.mem_flatMap.mp hv
    obtain ⟨p, hp, rfl⟩ := List.mem_map.mp hcp
    obtain ⟨_, hcpred⟩ := List.mem_filter.mp hc
    obtain ⟨_, hppred⟩ := List.mem_filter.mp hp
    exact ⟨huser, by simpa using hcpred, by simpa using hppred,
      by simpa using hdel, hstatus, hstart⟩
  · unfold getUpcomingVisits
    rw [List.pairwise_map]
    exact hsorted

/-- Closed witness for C9 on `sampleDb` at time 0. -/
theorem c9_upcoming_visits_witness :
    sampleCustomer.userId = "u1" ∧ sampleCustomer.id = sampleVisit.customerId ∧
    samplePet.id = sampleVisit.petId ∧ sampleVisit.isDeleted = false ∧
    sampleVisit.status = VisitStatus.scheduled ∧ (0 : Int) ≤ sampleVisit.scheduledStartAt :=
  (c9_upcoming_visits sampleDb 0 "u1").2.1
    { visit := sampleVisit, customer := sampleCustomer, pet := samplePet } (by decide)

/-! ## Claim C8 -/

/-- Filtering distributes over `flatMap`. -/
theorem filter_flatMap {α β : Type} (p : β → Bool) (f : α → List β) (l : List α) :
    (l.flatMap f).filter p = l.flatMap (fun a => (f a).filter p) := by
  induction l with
  | nil => rfl
  | cons a t ih => simp [List.flatMap_cons, List.filter_append, ih]

/-- Summing a mapped `flatMap` sums the per-element sums. -/
theorem sum_map_flatMap {α β M : Type} [AddCommMonoid M]
    (f : α → List β) (g : β → M) (l : List α) :
    ((l.flatMap f).map g).sum = (l.map (fun a => ((f a).map g).sum)).sum := by
  induction l with
  | nil => rfl
  | cons a t ih => simp [List.flatMap_cons, ih]

/-- Summing an if-then-else against zero is summing over the filter. -/
theorem sum_ite_filter {α M : Type} [AddCommMonoid M] (p : α → Bool) (F : α → M)
    (l : List α) :
    (l.map (fun a => if p a then F a else 0)).sum = ((l.filter p).map F).sum := by
  induction l with
  | nil => rfl
  | cons a t ih => cases hp : p a <;> simp [List.filter_cons, hp, ih]

/-- One visit's slice of the `visits ⋈ customers ⟕ visitTreatments` pipeline:
with distinct customer ids it contributes the whole treatment group `G` when
the visit qualifies and nothing otherwise. -/
theorem c8_head {γ : Type} (cs : List Customer) (hnd : (cs.map Customer.id).Nodup)
    (v : Visit) (uid : String) (rs re : Int) (G : List γ)
    (g : Visit × Customer → List γ) (hg : ∀ c, g (v, c) = G) :
    ((((cs.filter (fun c => c.id == v.customerId)).map (fun c => (v, c))).filter
        (fun r => r.2.userId == uid && !r.1.isDeleted &&
          decide (rs ≤ r.1.scheduledStartAt) && decide (r.1.scheduledStartAt ≤ re))).flatMap
        g) =
      if (!v.isDeleted && decide (rs ≤ v.scheduledStartAt) &&
          decide (v.scheduledStartAt ≤ re) &&
          cs.any (fun c => c.id == v.customerId && c.userId == uid)) then G else [] := by
  induction cs with
  | nil => simp
  | cons c t ih =>
    rw [List.map_cons] at hnd
    obtain ⟨hnotin, hnd'⟩ := List.nodup_cons.mp hnd
    rw [List.filter_cons]
    cases hid : c.id == v.customerId with
    | false =>
      simp only [Bool.false_eq_true, if_false]
      rw [ih hnd']
      simp [List.any_cons, hid]
    | true =>
      simp only [if_true]
      rw [List.map_cons, List.filter_cons]
      cases hq : (c.userId == uid && !v.isDeleted &&
          decide (rs ≤ v.scheduledStartAt) && decide (v.scheduledStartAt ≤ re)) with
      | false =>
        simp only [hq, Bool.false_eq_true, if_false]
        rw [ih hnd']
        rcases Bool.and_eq_false_iff.mp hq with hq1 | hq1
        · rcases Bool.and_eq_false_iff.mp hq1 with hq2 | hq2
          · rcases Bool.and_eq_false_iff.mp hq2 with hq3 | hq3
            · simp [List.any_cons, hid, hq3]
            · simp [hq3]
          · simp [hq2]
        · simp [hq1]
      | true =>
        obtain ⟨⟨⟨hu, hdel⟩, hd1⟩, hd2⟩ := by
          simpa only [Bool.and_eq_true] using hq
        have hcid : c.id = v.customerId := by simpa using hid
        have hTempty : t.filter (fun c => c.id == v.customerId) = [] := by
          rw [List.filter_eq_nil_iff]
          intro x hx hpx
          exact hnotin (hcid ▸ (by simpa using hpx) ▸ List.mem_map_of_mem Customer.id hx)
        simp only [hTempty, List.map_nil, List.filter_nil, List.map_cons, List.filter_cons,
          hu, hdel, hd1, hd2, Bool.true_and, Bool.and_true, if_true,
          List.flatMap_cons, List.flatMap_nil, List.append_nil,
          List.any_cons, hid, Bool.true_or]
        exact hg c

/-- The left-join group of a visit has `max k 1` rows for `k` treatment
rows. -/
theorem c8_group_length (db : Db) (v : Visit) :
    (match db.visitTreatments.filter (fun t : VisitTreatment => t.visitId == v.id) with
      | [] => [(v, (none : Option VisitTreatment))]
      | t :: ts => (t :: ts).map (fun t' => (v, some t'))).length =
      max (treatmentRowsOf db v).length 1 := by
  unfold treatmentRowsOf
  cases h : db.visitTreatments.filter (fun t : VisitTreatment => t.visitId == v.id) with
  | nil => simp
  | cons t ts =>
    have h1 : (1 : Nat) ≤ ts.length + 1 := Nat.succ_le_succ (Nat.zero_le _)
    simp [List.length_map, max_eq_left h1]

/-- Summing `priceCents` over the left-join group of a visit sums over all
its treatment rows (a null row contributes nothing). -/
theorem c8_group_sum (db : Db) (v : Visit) :
    ((match db.visitTreatments.filter (fun t : VisitTreatment => t.visitId == v.id) with
      | [] => [(v, (none : Option VisitTreatment))]
      | t :: ts => (t :: ts).map (fun t' => (v, some t'))).map
        (fun row : Visit × Option VisitTreatment =>
          match row.2 with
          | some t => t.priceCents.getD 0
          | none => (0 : Int))).sum =
      ((treatmentRowsOf db v).map (fun t => t.priceCents.getD 0)).sum := by
  unfold treatmentRowsOf
  cases h : db.visitTreatments.filter (fun t : VisitTreatment => t.visitId == v.id) with
  | nil => simp
  | cons t ts =>
    simp only [List.map_map, List.map_cons]
    rfl

/-- The aggregate of `countVisitsByUserId` in closed form over the qualifying
visits. -/
theorem countVisitsByUserId_eq (db : Db) (userId : String) (rangeStart rangeEnd : Int)
    (hnodup : (db.customers.map Customer.id).Nodup) :
    countVisitsByUserId db userId rangeStart rangeEnd =
      (((db.visits.filter (monthVisitQualifies db userId rangeStart rangeEnd)).map
          (fun v => max (treatmentRowsOf db v).length 1)).sum,
       ((db.visits.filter (monthVisitQualifies db userId rangeStart rangeEnd)).map
          (fun v => ((treatmentRowsOf db v).map (fun t => t.priceCents.getD 0)).sum)).sum) := by
  have main : ∀ vs : List Visit,
      (((vs.flatMap (fun v =>
          (db.customers.filter (fun c => c.id == v.customerId)).map (fun c => (v, c)))).filter
        (fun r => r.2.userId == userId && !r.1.isDeleted &&
          decide (rangeStart ≤ r.1.scheduledStartAt) &&
          decide (r.1.scheduledStartAt ≤ rangeEnd))).flatMap (fun r =>
        match db.visitTreatments.filter (fun t => t.visitId == r.1.id) with
        | [] => [(r.1, (none : Option VisitTreatment))]
        | t :: ts => (t :: ts).map (fun t' => (r.1, some t')))) =
      vs.flatMap (fun v =>
        if monthVisitQualifies db userId rangeStart rangeEnd v then
          (match db.visitTreatments.filter (fun t => t.visitId == v.id) with
            | [] => [(v, (none : Option VisitTreatment))]
            | t :: ts => (t :: ts).map (fun t' => (v, some t')))
        else []) := by
    intro vs
    induction vs with
    | nil => rfl
    | cons v t ih =>
      rw [List.flatMap_cons, List.filter_append, List.flatMap_append, ih, List.flatMap_cons]
      congr 1
      exact c8_head db.customers hnodup v userId rangeStart rangeEnd _ _ (fun c => rfl)
  have h1 : ∀ v : Visit,
      (if monthVisitQualifies db userId rangeStart rangeEnd v then
        (match db.visitTreatments.filter (fun t => t.visitId == v.id) with
          | [] => [(v, (none : Option VisitTreatment))]
          | t :: ts => (t :: ts).map (fun t' => (v, some t')))
       else []).length =
      (if monthVisitQualifies db userId rangeStart rangeEnd v then
        max (treatmentRowsOf db v).length 1 else 0) := by
    intro v
    by_cases hq : monthVisitQualifies db userId rangeStart rangeEnd v = true
    · simp only [hq, if_true]
      exact c8_group_length db v
    · simp [hq]
  have h2 : ∀ v : Visit,
      (((if monthVisitQualifies db userId rangeStart rangeEnd v then
          (match db.visitTreatments.filter (fun t => t.visitId == v.id) with
            | [] => [(v, (none : Option VisitTreatment))]
            | t :: ts => (t :: ts).map (fun t' => (v, some t')))
         else []).map (fun row =>
          match row.2 with
          | some t => t.priceCents.getD 0
          | none => 0)).sum) =
      (if monthVisitQualifies db userId rangeStart rangeEnd v then
        ((treatmentRowsOf db v).map (fun t => t.priceCents.getD 0)).sum else 0) := by
    intro v
    by_cases hq : monthVisitQualifies db userId rangeStart rangeEnd v = true
    · simp only [hq, if_true]
      exact c8_group_sum db v
    · simp [hq]
  unfold countVisitsByUserId
  dsimp only
  rw [main db.visits]
  simp only [Prod.mk.injEq]
  constructor
  · rw [List.length_flatMap]
    simp only [Function.comp_def]
    rw [List.map_congr_left (fun v _ => h1 v)]
    exact sum_ite_filter _ _ _
  · rw [sum_map_flatMap]
    rw [List.map_congr_left (fun v _ => h2 v)]
    exact sum_ite_filter _ _ _

/-- C8: `visitsThisMonth` is the row count of the left join between the
user's qualifying visits and all their treatment rows — a visit with `k ≥ 1`
treatment rows contributes `k` rather than 1 — and `totalRevenue` sums
`priceCents` over every joined treatment row, soft-deleted ones included
(`treatmentRowsOf` applies no `isDeleted` filter). -/
theorem c8_dashboard_join_semantics (db : Db) (userId : String)
    (rangeStart rangeEnd : Int)
    (hnodup : (db.customers.map Customer.id).Nodup) :
    (getDashboardStats db userId rangeStart rangeEnd).visitsThisMonth =
      ((db.visits.filter (monthVisitQualifies db userId rangeStart rangeEnd)).map
        (fun v => max (treatmentRowsOf db v).length 1)).sum ∧
    (getDashboardStats db userId rangeStart rangeEnd).totalRevenue =
      ((db.visits.filter (monthVisitQualifies db userId rangeStart rangeEnd)).map
        (fun v => ((treatmentRowsOf db v).map (fun t => t.priceCents.getD 0)).sum)).sum := by
  have h := countVisitsByUserId_eq db userId rangeStart rangeEnd hnodup
  exact ⟨congrArg Prod.fst h, congrArg Prod.snd h⟩

/-- Closed witness for C8 on `sampleDb` over the range `[0, 200]`. -/
theorem c8_dashboard_join_semantics_witness :
    (getDashboardStats sampleDb "u1" 0 200).visitsThisMonth =
      ((sampleDb.visits.filter (monthVisitQualifies sampleDb "u1" 0 200)).map
        (fun v => max (treatmentRowsOf sampleDb v).length 1)).sum ∧
    (getDashboardStats sampleDb "u1" 0 200).totalRevenue =
      ((sampleDb.visits.filter (monthVisitQualifies sampleDb "u1" 0 200)).map
        (fun v => ((treatmentRowsOf sampleDb v).map (fun t => t.priceCents.getD 0)).sum)).sum :=
  c8_dashboard_join_semantics sampleDb "u1" 0 200 (by decide)

/-! ## Claim C10 -/

/-- `normalizeImageDataUrl` either succeeds with the canonical re-encoded
data URL of a valid input, or throws a bad-request carrying one of the three
image error codes. -/
theorem normalizeImageDataUrl_cases (raw : String) :
    (∃ mime payload, matchDataUrl (jsTrim raw) = some (mime, payload) ∧
      allowedImageMimeTypes.contains (strLower mime) = true ∧
      (nodeBase64Decode payload).length ≠ 0 ∧
      (nodeBase64Decode payload).length ≤ MAX_IMAGE_BYTES ∧
      normalizeImageDataUrl raw = Except.ok ("data:" ++ strLower mime ++ ";base64," ++
        base64Encode (nodeBase64Decode payload))) ∨
    (∃ code msg, normalizeImageDataUrl raw = Except.error (AppError.badRequest code msg) ∧
      (code = "invalid_image_data" ∨ code = "unsupported_image_type" ∨
        code = "image_too_large")) := by
  unfold normalizeImageDataUrl
  dsimp only
  cases hm : matchDataUrl (jsTrim raw) with
  | none =>
    right
    exact ⟨"invalid_image_data", "Invalid image data URL format", rfl, Or.inl rfl⟩
  | some mp =>
    obtain ⟨mime, payload⟩ := mp
    cases hc : allowedImageMimeTypes.contains (strLower mime) with
    | false =>
      right
      refine ⟨"unsupported_image_type", "Unsupported image type", ?_, Or.inr (Or.inl rfl)⟩
      simp only [hc, Bool.not_false, if_true]
    | true =>
      cases hz : ((nodeBase64Decode payload).length == 0) with
      | true =>
        right
        refine ⟨"invalid_image_data", "Image data cannot be empty", ?_, Or.inl rfl⟩
        simp only [hc, Bool.not_true, Bool.false_eq_true, if_false, hz, if_true]
      | false =>
        by_cases hbig : (nodeBase64Decode payload).length > MAX_IMAGE_BYTES
        · right
          refine ⟨"image_too_large", "Image exceeds the 2MB size limit", ?_,
            Or.inr (Or.inr rfl)⟩
          simp only [hc, Bool.not_true, Bool.false_eq_true, if_false, hz, hbig, if_true]
        · left
          refine ⟨mime, payload, rfl, hc, by simpa using hz, by omega, ?_⟩
          simp only [hc, Bool.not_true, Bool.false_eq_true, if_false, hz, hbig]

/-- C10: for an existing pet, `updatePetImageForCustomer` stores an image
exactly when the input is a data URL with an allowed mime type whose decoded
payload is non-empty and at most `MAX_IMAGE_BYTES`; on failure it returns a
bad-request with one of the codes `invalid_image_data`,
`unsupported_image_type` or `image_too_large` and leaves the database (hence
the pet's `imageUrl`) unchanged; on success the stored value is the canonical
re-encoded data URL with lowercased mime type. -/
theorem c10_pet_image_validation (db : Db) (customerId petId dataUrl : String) (pet : Pet)
    (h : findPetByIdForCustomer db customerId petId = some pet) :
    ((∃ s, normalizeImageDataUrl dataUrl = Except.ok s) ↔
      (∃ mime payload, matchDataUrl (jsTrim dataUrl) = some (mime, payload) ∧
        strLower mime ∈ allowedImageMimeTypes ∧
        (nodeBase64Decode payload).length ≠ 0 ∧
        (nodeBase64Decode payload).length ≤ MAX_IMAGE_BYTES)) ∧
    (∀ s, normalizeImageDataUrl dataUrl = Except.ok s →
      (∃ mime payload, matchDataUrl (jsTrim dataUrl) = some (mime, payload) ∧
        s = "data:" ++ strLower mime ++ ";base64," ++
          base64Encode (nodeBase64Decode payload)) ∧
      (∃ dto db2, updatePetImageForCustomer db customerId petId dataUrl =
          (Except.ok dto, db2) ∧ dto.imageUrl = some s ∧
        ∀ p ∈ db2.pets, p.id = petId → p.imageUrl = some s)) ∧
    (∀ e, normalizeImageDataUrl dataUrl = Except.error e →
      updatePetImageForCustomer db customerId petId dataUrl = (Except.error e, db) ∧
      ∃ code msg, e = AppError.badRequest code msg ∧
        (code = "invalid_image_data" ∨ code = "unsupported_image_type" ∨
          code = "image_too_large")) := by
  have hpid : pet.id = petId := by
    have := List.find?_some h
    simp only [Bool.and_eq_true, beq_iff_eq] at this
    exact this.1.1
  have hpmem : pet ∈ db.pets := List.mem_of_find?_eq_some h
  refine ⟨?_, ?_, ?_⟩
  · constructor
    · rintro ⟨s, hs⟩
      rcases normalizeImageDataUrl_cases dataUrl with
        ⟨mime, payload, hm, hc, hne, hle, hok⟩ | ⟨code, msg, herr, _⟩
      · exact ⟨mime, payload, hm, by simpa using hc, hne, hle⟩
      · rw [herr] at hs
        exact absurd hs (by simp)
    · rintro ⟨mime, payload, hm, hmem, hne, hle⟩
      rcases normalizeImageDataUrl_cases dataUrl with
        ⟨mime', payload', _, _, _, _, hok⟩ | ⟨code, msg, herr, _⟩
      · exact ⟨_, hok⟩
      · -- the error branch is impossible: evaluate the success path directly
        have hc : allowedImageMimeTypes.contains (strLower mime) = true := by
          simpa using hmem
        have hok : normalizeImageDataUrl dataUrl =
            Except.ok ("data:" ++ strLower mime ++ ";base64," ++
              base64Encode (nodeBase64Decode payload)) := by
          unfold normalizeImageDataUrl
          dsimp only
          rw [hm]
          simp only [hc, Bool.not_true, Bool.false_eq_true, if_false,
            beq_eq_false_iff_ne.mpr hne]
          rw [if_neg (by omega)]
        exact ⟨_, hok⟩
  · intro s hs
    rcases normalizeImageDataUrl_cases dataUrl with
      ⟨mime, payload, hm, hc, hne, hle, hok⟩ | ⟨code, msg, herr, _⟩
    · have hsval : s = "data:" ++ strLower mime ++ ";base64," ++
          base64Encode (nodeBase64Decode payload) := by
        rw [hok] at hs
        exact (Except.ok.inj hs).symm
      refine ⟨⟨mime, payload, hm, hsval⟩, ?_⟩
      have hfind : (db.pets.find? (fun p => p.id == petId)).isSome :=
        List.find?_isSome.mpr ⟨pet, hpmem, by simp [hpid]⟩
      obtain ⟨p0, hp0⟩ := Option.isSome_iff_exists.mp hfind
      refine ⟨serializePet { p0 with imageUrl := some s },
        { db with pets := db.pets.map (fun p =>
            if p.id == petId then { p with imageUrl := some s } else p) }, ?_, rfl, ?_⟩
      · unfold updatePetImageForCustomer
        rw [h]
        simp only [hs]
        unfold updatePetById
        rw [hp0]
        rfl
      · intro p hp hpid2
        obtain ⟨p1, hp1, rfl⟩ := List.mem_map.mp hp
        cases hcb : (p1.id == petId) with
        | true => simp [hcb]
        | false =>
          simp only [hcb, Bool.false_eq_true, if_false] at hpid2 ⊢
          exact absurd (hpid2 ▸ hcb) (by simp)
    · rw [herr] at hs
      exact absurd hs (by simp)
  · intro e he
    rcases normalizeImageDataUrl_cases dataUrl with
      ⟨mime, payload, hm, hc, hne, hle, hok⟩ | ⟨code, msg, herr, hcode⟩
    · rw [hok] at he
      exact absurd he (by simp)
    · have hev : e = AppError.badRequest code msg := by
        rw [herr] at he
        exact (Except.error.inj he).symm
      refine ⟨?_, code, msg, hev, hcode⟩
      unfold updatePetImageForCustomer
      rw [h]
      simp only [he]

/-- Closed witness for C10 on `sampleDb` with a 1-byte PNG payload. -/
theorem c10_pet_image_validation_witness :
    ∃ dto db2, updatePetImageForCustomer sampleDb "c1" "p1" "data:image/png;base64,QQ==" =
        (Except.ok dto, db2) ∧ dto.imageUrl = some "data:image/png;base64,QQ==" ∧
      ∀ p ∈ db2.pets, p.id = "p1" → p.imageUrl = some "data:image/png;base64,QQ==" :=
  ((c10_pet_image_validation sampleDb "c1" "p1" "data:image/png;base64,QQ=="
    samplePet rfl).2.1 "data:image/png;base64,QQ==" rfl).2

end Kalimere
